import Mathlib

/-!
# ms-todo-sample: the polling loop of `main.go`

A shallow embedding of `src/main.go`: the two JSON shapes, the token store
kept in the process environment, the task fetcher, the token refresher, the
result printer and the body of the endless `for` loop of `main`.

Effects are made explicit.  A `World` carries the process environment, the
network (an oracle that answers the n-th request), the response bodies handed
out and closed, the calls deferred by `main`, and a trace of every observable
event in the order it happens.

Library calls are modelled by their documented behaviour:

* `encoding/json`: the text is scanned into a `JSON` value (the grammar of
  RFC 8259, text after the first value left unread), which is then stored into
  the target struct member by member (keys matched exactly, else up to case;
  `null` a no-op; an ill-typed value a type error reported at the end; an
  array element decoded into the entry the slice already holds at its index).
  A body is a text of Unicode characters, and `int` has 64 bits.
* `net/http`: `Client.Do` returns what the network oracle answers; a body
  can be read until it is closed.
* `os`: `Getenv` and `Setenv` on a list of entries; `Setenv` refuses a value
  that holds a NUL character.
* `fmt.Println` writes a line to standard output, the built-in `println` a
  line to standard error.
* `defer` in `main` binds the body at hand; the deferred calls run when the
  process panics.
-/

set_option autoImplicit false
set_option maxRecDepth 8000

namespace MsTodo

/-! ## JSON text, as `encoding/json` scans it -/

/-- A scanned JSON value.  Numbers keep their literal text, as the decoder
converts it only once the target type is known. -/
inductive JSON where
  | null
  | bool (b : Bool)
  | num (lit : List Char)
  | str (s : String)
  | arr (xs : List JSON)
  | obj (kvs : List (String × JSON))

/-- The double quote character. -/
def quote : Char := Char.ofNat 34
/-- The backslash character. -/
def backslash : Char := Char.ofNat 92
/-- The opening brace. -/
def lbrace : Char := Char.ofNat 123
/-- The closing brace. -/
def rbrace : Char := Char.ofNat 125
/-- The Unicode replacement character U+FFFD. -/
def replacementChar : Char := Char.ofNat 65533

/-- The four bytes the scanner treats as insignificant space. -/
def isSpace (c : Char) : Bool :=
  c = ' ' || c = Char.ofNat 9 || c = Char.ofNat 13 || c = Char.ofNat 10

/-- Drop leading space. -/
def skipSpace : List Char → List Char
  | [] => []
  | c :: rest => if isSpace c then skipSpace rest else c :: rest

/-- Decimal digit test. -/
def isDigit (c : Char) : Bool := 48 ≤ c.toNat && c.toNat ≤ 57

/-- Value of a hexadecimal digit. -/
def hexVal (c : Char) : Option Nat :=
  let n := c.toNat
  if 48 ≤ n ∧ n ≤ 57 then some (n - 48)
  else if 97 ≤ n ∧ n ≤ 102 then some (n - 87)
  else if 65 ≤ n ∧ n ≤ 70 then some (n - 55)
  else none

/-- Value of four hexadecimal digits (`getu4` without the leading `\u`). -/
def hex4 (a b c d : Char) : Option Nat :=
  match hexVal a, hexVal b, hexVal c, hexVal d with
  | some x, some y, some z, some w => some (((x * 16 + y) * 16 + z) * 16 + w)
  | _, _, _, _ => none

/-- The character a one-letter escape stands for. -/
def escapeChar (e : Char) : Option Char :=
  if e = quote then some quote
  else if e = backslash then some backslash
  else if e = '/' then some '/'
  else if e = 'b' then some (Char.ofNat 8)
  else if e = 'f' then some (Char.ofNat 12)
  else if e = 'n' then some (Char.ofNat 10)
  else if e = 'r' then some (Char.ofNat 13)
  else if e = 't' then some (Char.ofNat 9)
  else none

/-- Scan the inside of a string literal up to its closing quote: the raw text
(escapes still in place) and what follows the literal.  Control characters
and malformed escapes are syntax errors. -/
def scanString : List Char → Option (List Char × List Char)
  | [] => none
  | c :: rest =>
    if c = quote then some ([], rest)
    else if c = backslash then
      match rest with
      | [] => none
      | e :: rest1 =>
        if e = 'u' then
          match rest1 with
          | a :: b :: c2 :: d :: rest2 =>
            match hex4 a b c2 d with
            | none => none
            | some _ =>
              (scanString rest2).map
                (fun p => (c :: e :: a :: b :: c2 :: d :: p.1, p.2))
          | _ => none
        else
          match escapeChar e with
          | none => none
          | some _ => (scanString rest1).map (fun p => (c :: e :: p.1, p.2))
    else if c.toNat < 32 then none
    else (scanString rest).map (fun p => (c :: p.1, p.2))

/-- A `\uXXXX` escape at the head of the text, read as a low surrogate. -/
def lowSurrogateAhead : List Char → Option (Nat × List Char)
  | bs :: u :: a :: b :: c :: d :: rest =>
    if bs = backslash ∧ u = 'u' then
      match hex4 a b c d with
      | some lo => if 56320 ≤ lo ∧ lo < 57344 then some (lo, rest) else none
      | none => none
    else none
  | _ => none

/-- Decode the raw text of a scanned string literal (`unquote`): escapes are
replaced, a surrogate pair becomes one character, a lone surrogate becomes
U+FFFD.  Fuel bounds the number of steps; the raw length suffices. -/
def unquote : Nat → List Char → List Char
  | 0, _ => []
  | _, [] => []
  | fuel + 1, c :: rest =>
    if c = backslash then
      match rest with
      | [] => []
      | e :: rest1 =>
        if e = 'u' then
          match rest1 with
          | a :: b :: c2 :: d :: rest2 =>
            match hex4 a b c2 d with
            | none => []
            | some rr =>
              if 55296 ≤ rr ∧ rr < 57344 then
                match (if rr < 56320 then lowSurrogateAhead rest2 else none) with
                | some (lo, rest3) =>
                  Char.ofNat ((rr - 55296) * 1024 + (lo - 56320) + 65536)
                    :: unquote fuel rest3
                | none => replacementChar :: unquote fuel rest2
              else Char.ofNat rr :: unquote fuel rest2
          | _ => []
        else (escapeChar e).getD e :: unquote fuel rest1
    else c :: unquote fuel rest

/-- Split off a maximal run of digits. -/
def scanDigits : List Char → List Char × List Char
  | [] => ([], [])
  | c :: rest =>
    if isDigit c then ((scanDigits rest).1.cons c, (scanDigits rest).2)
    else ([], c :: rest)

/-- Optional exponent of a number literal. -/
def scanExponent (cs : List Char) : Option (List Char × List Char) :=
  match cs with
  | e :: rest =>
    if e = 'e' ∨ e = 'E' then
      let signed : List Char × List Char :=
        match rest with
        | s :: rest1 => if s = '+' ∨ s = '-' then ([s], rest1) else ([], rest)
        | [] => ([], rest)
      match scanDigits signed.2 with
      | ([], _) => none
      | (ds, rest2) => some (e :: signed.1 ++ ds, rest2)
    else some ([], cs)
  | [] => some ([], cs)

/-- Optional fraction of a number literal. -/
def scanFraction (cs : List Char) : Option (List Char × List Char) :=
  match cs with
  | dot :: rest =>
    if dot = '.' then
      match scanDigits rest with
      | ([], _) => none
      | (ds, rest1) => some (dot :: ds, rest1)
    else some ([], cs)
  | [] => some ([], cs)

/-- Scan a number literal: optional minus, `0` or a digit run without leading
zero, optional fraction, optional exponent. -/
def scanNumber (cs : List Char) : Option (List Char × List Char) :=
  let signed : List Char × List Char :=
    match cs with
    | s :: rest => if s = '-' then ([s], rest) else ([], cs)
    | [] => ([], cs)
  match signed.2 with
  | [] => none
  | d :: rest =>
    if ¬ isDigit d then none
    else
      let intPart : List Char × List Char :=
        if d = '0' then ([d], rest) else ((scanDigits rest).1.cons d, (scanDigits rest).2)
      match scanFraction intPart.2 with
      | none => none
      | some (frac, rest1) =>
        match scanExponent rest1 with
        | none => none
        | some (ex, rest2) => some (signed.1 ++ intPart.1 ++ frac ++ ex, rest2)

/-- Match a fixed word at the head of the text. -/
def scanWord : List Char → List Char → Option (List Char)
  | [], cs => some cs
  | _ :: _, [] => none
  | w :: ws, c :: cs => if w = c then scanWord ws cs else none

/-- Deepest nesting of arrays and objects the scanner accepts. -/
def maxNestingDepth : Nat := 10000

mutual
/-- Scan one JSON value at the head of the text. -/
def parseValue : Nat → Nat → List Char → Option (JSON × List Char)
  | 0, _, _ => none
  | fuel + 1, depth, cs =>
    match skipSpace cs with
    | [] => none
    | c :: rest =>
      if c = lbrace then
        if maxNestingDepth ≤ depth then none
        else
          match skipSpace rest with
          | [] => none
          | c1 :: rest1 =>
            if c1 = rbrace then some (JSON.obj [], rest1)
            else
              match parseMembers fuel (depth + 1) (c1 :: rest1) with
              | none => none
              | some (kvs, rest2) => some (JSON.obj kvs, rest2)
      else if c = '[' then
        if maxNestingDepth ≤ depth then none
        else
          match skipSpace rest with
          | [] => none
          | c1 :: rest1 =>
            if c1 = ']' then some (JSON.arr [], rest1)
            else
              match parseElems fuel (depth + 1) (c1 :: rest1) with
              | none => none
              | some (xs, rest2) => some (JSON.arr xs, rest2)
      else if c = quote then
        match scanString rest with
        | none => none
        | some (raw, rest1) => some (JSON.str (String.mk (unquote raw.length raw)), rest1)
      else if c = 't' then
        (scanWord ['r', 'u', 'e'] rest).map (fun r => (JSON.bool true, r))
      else if c = 'f' then
        (scanWord ['a', 'l', 's', 'e'] rest).map (fun r => (JSON.bool false, r))
      else if c = 'n' then
        (scanWord ['u', 'l', 'l'] rest).map (fun r => (JSON.null, r))
      else
        match scanNumber (c :: rest) with
        | none => none
        | some (lit, rest1) => some (JSON.num lit, rest1)
/-- Scan the elements of a non-empty array, up to and including `]`. -/
def parseElems : Nat → Nat → List Char → Option (List JSON × List Char)
  | 0, _, _ => none
  | fuel + 1, depth, cs =>
    match parseValue fuel depth cs with
    | none => none
    | some (v, rest) =>
      match skipSpace rest with
      | [] => none
      | c :: rest1 =>
        if c = ',' then
          match parseElems fuel depth rest1 with
          | none => none
          | some (vs, rest2) => some (v :: vs, rest2)
        else if c = ']' then some ([v], rest1)
        else none
/-- Scan the members of a non-empty object, up to and including the brace. -/
def parseMembers : Nat → Nat → List Char → Option (List (String × JSON) × List Char)
  | 0, _, _ => none
  | fuel + 1, depth, cs =>
    match skipSpace cs with
    | [] => none
    | q :: rest =>
      if q ≠ quote then none
      else
        match scanString rest with
        | none => none
        | some (raw, rest1) =>
          match skipSpace rest1 with
          | [] => none
          | colon :: rest2 =>
            if colon ≠ ':' then none
            else
              match parseValue fuel depth rest2 with
              | none => none
              | some (v, rest3) =>
                match skipSpace rest3 with
                | [] => none
                | c :: rest4 =>
                  if c = ',' then
                    match parseMembers fuel depth rest4 with
                    | none => none
                    | some (kvs, rest5) =>
                      some ((String.mk (unquote raw.length raw), v) :: kvs, rest5)
                  else if c = rbrace then
                    some ([(String.mk (unquote raw.length raw), v)], rest4)
                  else none
end

/-- The first JSON value of a body, as `Decoder.Decode` reads it: text after
the value is left unread, and a body with no value is an error. -/
def parse (body : String) : Option JSON :=
  (parseValue (body.length + 1) 0 body.data).map (fun p => p.1)

/-! ## Decoding into the Go structs -/

/-- The errors the program can meet. -/
inductive Error where
  /-- `io.EOF`: the body holds no value. -/
  | eof
  /-- A malformed or truncated JSON text. -/
  | malformed
  /-- `*json.UnmarshalTypeError`: a value that does not fit the named field. -/
  | typeMismatch (field : String)
  /-- The error of `time.Time.UnmarshalJSON`. -/
  | badTime (field : String)
  /-- Read of a response body after `Close`. -/
  | closedBody
  /-- An error returned by `http.Client.Do`. -/
  | transport (msg : String)
  deriving DecidableEq

/-- Simple case folding of one character, towards the ASCII lower-case
letters: besides `A`-`Z`, the long s (U+017F) and the Kelvin sign (U+212A)
fold to `s` and `k`. -/
def foldChar (c : Char) : Char :=
  if 65 ≤ c.toNat ∧ c.toNat ≤ 90 then Char.ofNat (c.toNat + 32)
  else if c.toNat = 383 then 's'
  else if c.toNat = 8490 then 'k'
  else c

/-- Case-insensitive match of an object key against an (ASCII) field name. -/
def equalFold (key name : String) : Bool :=
  key.data.map foldChar = name.data.map foldChar

/-- The struct field an object key is stored into: the field of exactly that
name if there is one, otherwise the first field matching it up to case. -/
def findField (fields : List String) (key : String) : Option String :=
  if key ∈ fields then some key else fields.find? (fun name => equalFold key name)

/-- Keep the earliest type error (`saveError`). -/
def saveError (saved : Option Error) (e : Error) : Option Error :=
  match saved with
  | some e0 => some e0
  | none => some e

/-- Store into a `string` field. -/
def storeString (field : String) (v : JSON) (cur : String) (saved : Option Error) :
    String × Option Error :=
  match v with
  | .str s => (s, saved)
  | .null => (cur, saved)
  | _ => (cur, saveError saved (.typeMismatch field))

/-- Store into a `bool` field. -/
def storeBool (field : String) (v : JSON) (cur : Bool) (saved : Option Error) :
    Bool × Option Error :=
  match v with
  | .bool b => (b, saved)
  | .null => (cur, saved)
  | _ => (cur, saveError saved (.typeMismatch field))

/-- Value of a run of decimal digits. -/
def digitsToNat (ds : List Char) : Nat :=
  ds.foldl (fun n c => n * 10 + (c.toNat - 48)) 0

/-- The number literal as a 64-bit signed integer (`strconv.ParseInt` in base
10 with 64 bits): no fraction, no exponent, in range. -/
def parseInt64 (lit : List Char) : Option Int :=
  match lit with
  | '-' :: ds =>
    if ds ≠ [] ∧ ds.all isDigit ∧ digitsToNat ds ≤ 2 ^ 63 then some (-(digitsToNat ds : Int))
    else none
  | ds =>
    if ds ≠ [] ∧ ds.all isDigit ∧ digitsToNat ds < 2 ^ 63 then some (digitsToNat ds : Int)
    else none

/-- Store into an `int` field. -/
def storeInt (field : String) (v : JSON) (cur : Int) (saved : Option Error) :
    Int × Option Error :=
  match v with
  | .num lit =>
    match parseInt64 lit with
    | some n => (n, saved)
    | none => (cur, saveError saved (.typeMismatch field))
  | .null => (cur, saved)
  | _ => (cur, saveError saved (.typeMismatch field))

/-- The two conversions of the Go library that are taken as given rather
than modelled.  Every theorem below holds whatever they accept. -/
structure Lib where
  /-- Whether `time.Time.UnmarshalJSON` accepts the text of a string (a time
  in RFC 3339 form). -/
  timeOK : String → Bool
  /-- Whether a value converts to an `interface{}` without error: each number
  in it has to fit a `float64`. -/
  anyOK : JSON → Bool

/-- Store into an `interface{}` field: `null` gives nil, every other value is
stored, with a type error when a number in it does not convert. -/
def storeAny (lib : Lib) (field : String) (v : JSON) (saved : Option Error) :
    Option JSON × Option Error :=
  match v with
  | .null => (none, saved)
  | w => (some w, if lib.anyOK w then saved else saveError saved (.typeMismatch field))

/-- Store into a `[]interface{}` field: the elements of an array convert one
by one, `null` gives nil. -/
def storeAnySlice (lib : Lib) (field : String) (v : JSON) (cur : List JSON)
    (saved : Option Error) : List JSON × Option Error :=
  match v with
  | .arr xs =>
    (xs, if xs.all lib.anyOK then saved else saveError saved (.typeMismatch field))
  | .null => ([], saved)
  | _ => (cur, saveError saved (.typeMismatch field))

/-- Store into a `time.Time` field through its `UnmarshalJSON`: `null` is a
no-op, a string the time package accepts is stored, and anything else is an
error that stops the decoding at once. -/
def storeTime (lib : Lib) (field : String) (v : JSON) (cur : String) :
    Except Error String :=
  match v with
  | .null => .ok cur
  | .str s => if lib.timeOK s then .ok s else .error (.badTime field)
  | _ => .error (.badTime field)

/-- Decode a JSON value into a struct: every member of an object is stored
into the field its key names, in the order of the text, and members naming
no field are skipped; `null` leaves the struct as it is; any other value is a
type error. -/
def decodeStruct {α : Type} (name : String) (fields : List String)
    (setField : String → JSON → α × Option Error → Except Error (α × Option Error))
    (j : JSON) (st : α × Option Error) : Except Error (α × Option Error) :=
  match j with
  | .obj kvs =>
    kvs.foldlM
      (fun acc kv =>
        match findField fields kv.1 with
        | none => .ok acc
        | some f => setField f kv.2 acc)
      st
  | .null => .ok st
  | _ => .ok (st.1, saveError st.2 (.typeMismatch name))

/-- RefreshResult contains token refresh result from api. -/
structure RefreshResult where
  TokenType : String := ""
  Scope : String := ""
  ExpiresIn : Int := 0
  ExtExpiresIn : Int := 0
  AccessToken : String := ""
  RefreshToken : String := ""

/-- The JSON names of the fields of `RefreshResult`, in declaration order. -/
def refreshFields : List String :=
  ["token_type", "scope", "expires_in", "ext_expires_in", "access_token", "refresh_token"]

/-- Store one member into a `RefreshResult`. -/
def RefreshResult.setField (f : String) (v : JSON) (st : RefreshResult × Option Error) :
    Except Error (RefreshResult × Option Error) :=
  if f = "token_type" then
    .ok ({ st.1 with TokenType := (storeString f v st.1.TokenType st.2).1 },
      (storeString f v st.1.TokenType st.2).2)
  else if f = "scope" then
    .ok ({ st.1 with Scope := (storeString f v st.1.Scope st.2).1 },
      (storeString f v st.1.Scope st.2).2)
  else if f = "expires_in" then
    .ok ({ st.1 with ExpiresIn := (storeInt f v st.1.ExpiresIn st.2).1 },
      (storeInt f v st.1.ExpiresIn st.2).2)
  else if f = "ext_expires_in" then
    .ok ({ st.1 with ExtExpiresIn := (storeInt f v st.1.ExtExpiresIn st.2).1 },
      (storeInt f v st.1.ExtExpiresIn st.2).2)
  else if f = "access_token" then
    .ok ({ st.1 with AccessToken := (storeString f v st.1.AccessToken st.2).1 },
      (storeString f v st.1.AccessToken st.2).2)
  else if f = "refresh_token" then
    .ok ({ st.1 with RefreshToken := (storeString f v st.1.RefreshToken st.2).1 },
      (storeString f v st.1.RefreshToken st.2).2)
  else .ok st

/-- The body of a task (`Body` of an entry of `TasksResult.Value`). -/
structure TaskBody where
  ContentType : String := ""
  Content : String := ""

/-- Store one member into a `TaskBody`. -/
def TaskBody.setField (f : String) (v : JSON) (st : TaskBody × Option Error) :
    Except Error (TaskBody × Option Error) :=
  if f = "contentType" then
    .ok ({ st.1 with ContentType := (storeString f v st.1.ContentType st.2).1 },
      (storeString f v st.1.ContentType st.2).2)
  else if f = "content" then
    .ok ({ st.1 with Content := (storeString f v st.1.Content st.2).1 },
      (storeString f v st.1.Content st.2).2)
  else .ok st

/-- The completion time of a task (`CompletedDateTime`). -/
structure CompletedDateTime where
  DateTime : String := ""
  TimeZone : String := ""

/-- Store one member into a `CompletedDateTime`. -/
def CompletedDateTime.setField (f : String) (v : JSON)
    (st : CompletedDateTime × Option Error) :
    Except Error (CompletedDateTime × Option Error) :=
  if f = "dateTime" then
    .ok ({ st.1 with DateTime := (storeString f v st.1.DateTime st.2).1 },
      (storeString f v st.1.DateTime st.2).2)
  else if f = "timeZone" then
    .ok ({ st.1 with TimeZone := (storeString f v st.1.TimeZone st.2).1 },
      (storeString f v st.1.TimeZone st.2).2)
  else .ok st

/-- One entry of `TasksResult.Value`.  The two `time.Time` fields keep the
accepted text, the `interface{}` fields the scanned value. -/
structure Task where
  OdataEtag : String := ""
  ID : String := ""
  CreatedDateTime : String := ""
  LastModifiedDateTime : String := ""
  ChangeKey : String := ""
  Categories : List JSON := []
  AssignedTo : String := ""
  HasAttachments : Bool := false
  Importance : String := ""
  IsReminderOn : Bool := false
  Owner : String := ""
  ParentFolderID : String := ""
  Sensitivity : String := ""
  Status : String := ""
  Subject : String := ""
  DueDateTime : Option JSON := none
  Recurrence : Option JSON := none
  ReminderDateTime : Option JSON := none
  StartDateTime : Option JSON := none
  Body : TaskBody := {}
  CompletedDateTime : CompletedDateTime := {}

/-- The JSON names of the fields of a task, in declaration order. -/
def taskFields : List String :=
  ["@odata.etag", "id", "createdDateTime", "lastModifiedDateTime", "changeKey",
   "categories", "assignedTo", "hasAttachments", "importance", "isReminderOn", "owner",
   "parentFolderId", "sensitivity", "status", "subject", "dueDateTime", "recurrence",
   "reminderDateTime", "startDateTime", "body", "completedDateTime"]

/-- Store one member into a task. -/
def Task.setField (lib : Lib) (f : String) (v : JSON)
    (st : Task × Option Error) : Except Error (Task × Option Error) :=
  if f = "@odata.etag" then
    .ok ({ st.1 with OdataEtag := (storeString f v st.1.OdataEtag st.2).1 },
      (storeString f v st.1.OdataEtag st.2).2)
  else if f = "id" then
    .ok ({ st.1 with ID := (storeString f v st.1.ID st.2).1 },
      (storeString f v st.1.ID st.2).2)
  else if f = "createdDateTime" then
    (storeTime lib f v st.1.CreatedDateTime).map
      (fun t => ({ st.1 with CreatedDateTime := t }, st.2))
  else if f = "lastModifiedDateTime" then
    (storeTime lib f v st.1.LastModifiedDateTime).map
      (fun t => ({ st.1 with LastModifiedDateTime := t }, st.2))
  else if f = "changeKey" then
    .ok ({ st.1 with ChangeKey := (storeString f v st.1.ChangeKey st.2).1 },
      (storeString f v st.1.ChangeKey st.2).2)
  else if f = "categories" then
    .ok ({ st.1 with Categories := (storeAnySlice lib f v st.1.Categories st.2).1 },
      (storeAnySlice lib f v st.1.Categories st.2).2)
  else if f = "assignedTo" then
    .ok ({ st.1 with AssignedTo := (storeString f v st.1.AssignedTo st.2).1 },
      (storeString f v st.1.AssignedTo st.2).2)
  else if f = "hasAttachments" then
    .ok ({ st.1 with HasAttachments := (storeBool f v st.1.HasAttachments st.2).1 },
      (storeBool f v st.1.HasAttachments st.2).2)
  else if f = "importance" then
    .ok ({ st.1 with Importance := (storeString f v st.1.Importance st.2).1 },
      (storeString f v st.1.Importance st.2).2)
  else if f = "isReminderOn" then
    .ok ({ st.1 with IsReminderOn := (storeBool f v st.1.IsReminderOn st.2).1 },
      (storeBool f v st.1.IsReminderOn st.2).2)
  else if f = "owner" then
    .ok ({ st.1 with Owner := (storeString f v st.1.Owner st.2).1 },
      (storeString f v st.1.Owner st.2).2)
  else if f = "parentFolderId" then
    .ok ({ st.1 with ParentFolderID := (storeString f v st.1.ParentFolderID st.2).1 },
      (storeString f v st.1.ParentFolderID st.2).2)
  else if f = "sensitivity" then
    .ok ({ st.1 with Sensitivity := (storeString f v st.1.Sensitivity st.2).1 },
      (storeString f v st.1.Sensitivity st.2).2)
  else if f = "status" then
    .ok ({ st.1 with Status := (storeString f v st.1.Status st.2).1 },
      (storeString f v st.1.Status st.2).2)
  else if f = "subject" then
    .ok ({ st.1 with Subject := (storeString f v st.1.Subject st.2).1 },
      (storeString f v st.1.Subject st.2).2)
  else if f = "dueDateTime" then
    .ok ({ st.1 with DueDateTime := (storeAny lib f v st.2).1 }, (storeAny lib f v st.2).2)
  else if f = "recurrence" then
    .ok ({ st.1 with Recurrence := (storeAny lib f v st.2).1 }, (storeAny lib f v st.2).2)
  else if f = "reminderDateTime" then
    .ok ({ st.1 with ReminderDateTime := (storeAny lib f v st.2).1 }, (storeAny lib f v st.2).2)
  else if f = "startDateTime" then
    .ok ({ st.1 with StartDateTime := (storeAny lib f v st.2).1 }, (storeAny lib f v st.2).2)
  else if f = "body" then
    (decodeStruct f ["contentType", "content"] TaskBody.setField v (st.1.Body, st.2)).map
      (fun b => ({ st.1 with Body := b.1 }, b.2))
  else if f = "completedDateTime" then
    (decodeStruct f ["dateTime", "timeZone"] CompletedDateTime.setField v
        (st.1.CompletedDateTime, st.2)).map
      (fun c => ({ st.1 with CompletedDateTime := c.1 }, c.2))
  else .ok st

/-- A Go slice of tasks: its elements, and the entries its backing array
still holds past its length.  The decoder decodes an array element into the
entry the backing array already holds at that index. -/
structure TaskSlice where
  elems : List Task := []
  spare : List Task := []

/-- TasksResult contains To-Do tasks from api. -/
structure TasksResult where
  OdataContext : String := ""
  OdataNextLink : String := ""
  Value : TaskSlice := {}

/-- The JSON names of the fields of `TasksResult`, in declaration order. -/
def tasksFields : List String := ["@odata.context", "@odata.nextLink", "value"]

/-- Decode the elements of a non-empty array into a slice, one by one: the
element at an index is decoded into the entry the backing array holds there
(`old`, a zero entry where it holds none), and becomes an element. -/
def decodeElems (lib : Lib) (field : String) :
    List JSON → List Task → List Task × Option Error → Except Error (List Task × Option Error)
  | [], _, acc => .ok acc
  | x :: xs, old, acc =>
    match decodeStruct field taskFields (Task.setField lib) x (old.headD {}, acc.2) with
    | .error e => .error e
    | .ok t => decodeElems lib field xs old.tail (acc.1 ++ [t.1], t.2)

/-- Store into the slice `Value`.  An empty array and `null` give an empty
slice with a new backing array.  Any other array is decoded element by
element into the entries of the backing array, which grows as needed; the
length becomes that of the array, and the entries past it stay in the backing
array.  Anything else is a type error. -/
def storeTasks (lib : Lib) (field : String) (v : JSON)
    (st : TaskSlice × Option Error) : Except Error (TaskSlice × Option Error) :=
  match v with
  | .arr [] => .ok ({ elems := [], spare := [] }, st.2)
  | .arr xs =>
    (decodeElems lib field xs (st.1.elems ++ st.1.spare) (([] : List Task), st.2)).map
      (fun r => ({ elems := r.1, spare := (st.1.elems ++ st.1.spare).drop xs.length }, r.2))
  | .null => .ok ({ elems := [], spare := [] }, st.2)
  | _ => .ok (st.1, saveError st.2 (.typeMismatch field))

/-- Store one member into a `TasksResult`. -/
def TasksResult.setField (lib : Lib) (f : String) (v : JSON)
    (st : TasksResult × Option Error) : Except Error (TasksResult × Option Error) :=
  if f = "@odata.context" then
    .ok ({ st.1 with OdataContext := (storeString f v st.1.OdataContext st.2).1 },
      (storeString f v st.1.OdataContext st.2).2)
  else if f = "@odata.nextLink" then
    .ok ({ st.1 with OdataNextLink := (storeString f v st.1.OdataNextLink st.2).1 },
      (storeString f v st.1.OdataNextLink st.2).2)
  else if f = "value" then
    (storeTasks lib f v (st.1.Value, st.2)).map
      (fun t => ({ st.1 with Value := t.1 }, t.2))
  else .ok st

/-- The outcome of `Decode`: the struct when neither a hard error nor a saved
type error occurred. -/
def finish {α : Type} (r : Except Error (α × Option Error)) : Except Error α :=
  match r with
  | .error e => .error e
  | .ok (a, none) => .ok a
  | .ok (_, some e) => .error e

/-- The scanning step of `Decode`, with its two errors. -/
def scanBody (body : String) : Except Error JSON :=
  match parse body with
  | some j => .ok j
  | none => if skipSpace body.data = [] then .error .eof else .error .malformed

/-- `json.NewDecoder(body).Decode(&result)` for a zero `RefreshResult`. -/
def decodeRefreshResult (body : String) : Except Error RefreshResult :=
  match scanBody body with
  | .error e => .error e
  | .ok j =>
    finish (decodeStruct "RefreshResult" refreshFields RefreshResult.setField j
      (({} : RefreshResult), none))

/-- `json.NewDecoder(body).Decode(&result)` for a zero `TasksResult`. -/
def decodeTasksResult (lib : Lib) (body : String) : Except Error TasksResult :=
  match scanBody body with
  | .error e => .error e
  | .ok j =>
    finish (decodeStruct "TasksResult" tasksFields (TasksResult.setField lib) j
      (({} : TasksResult), none))

/-- The members of an object that are stored into the named field. -/
def membersOf (fields : List String) (name : String) (kvs : List (String × JSON)) :
    List (String × JSON) :=
  kvs.filter (fun kv => findField fields kv.1 = some name)

/-- The string a run of members leaves in a `string` field holding `init`:
each string replaces the one before it, `null` changes nothing. -/
def stringOf (name : String) (members : List (String × JSON)) (init : String) : String :=
  members.foldl (fun cur kv => (storeString name kv.2 cur none).1) init

/-- The line `printTasks` writes for one element of the array `value` of the
payload: the status and the subject its members leave in a fresh entry. -/
def payloadLine (x : JSON) : String :=
  match x with
  | .obj members =>
    stringOf "status" (membersOf taskFields "status" members) "" ++ " : "
      ++ stringOf "subject" (membersOf taskFields "subject" members) ""
  | _ => "" ++ " : " ++ ""

/-! ## Task lists written out as text -/

/-- A string that stands for itself between quotes: no quote, no backslash
and no control character in it. -/
def plain (s : String) : Prop :=
  ∀ c ∈ s.data, c ≠ quote ∧ c ≠ backslash ∧ ¬ c.toNat < 32

instance (s : String) : Decidable (plain s) := by
  unfold plain; infer_instance

/-- The text of one entry with a status and a subject, followed by `rest`:
`{"status":"…","subject":"…"}`. -/
def renderEntry (p : String × String) (rest : List Char) : List Char :=
  lbrace :: quote :: ("status".data ++ quote :: ':' :: quote :: (p.1.data ++ quote :: ','
    :: quote :: ("subject".data ++ quote :: ':' :: quote :: (p.2.data ++ quote :: rbrace
    :: rest))))

/-- The text of further entries, each after a comma, followed by `rest`. -/
def renderMore : List (String × String) → List Char → List Char
  | [], rest => rest
  | q :: qs, rest => ',' :: renderEntry q (renderMore qs rest)

/-- The text of the entries of an array, followed by `rest`. -/
def renderEntries : List (String × String) → List Char → List Char
  | [], rest => rest
  | p :: ps, rest => renderEntry p (renderMore ps rest)

/-- The task-list body `{"value":[…]}` with the given (status, subject)
pairs as its entries, in order. -/
def renderTasks (ps : List (String × String)) : String :=
  String.mk (lbrace :: quote :: ("value".data ++ quote :: ':' :: '['
    :: renderEntries ps [']', rbrace]))

/-- The scanned value of an entry with a status and a subject. -/
def entryJSON (p : String × String) : JSON :=
  .obj [("status", .str p.1), ("subject", .str p.2)]

/-! ## The world the program runs in -/

/-- An HTTP request as the program builds it.  The body of the POST is kept
as the form values in the order they are added (the encoding then sorts and
escapes them). -/
structure Request where
  method : String
  url : String
  header : List (String × String)
  form : List (String × String)
  deriving DecidableEq

/-- What `http.Client.Do` comes back with: a response of any status, or a
transport error. -/
inductive Reply where
  | response (status : Nat) (body : String)
  | failure (msg : String)
  deriving DecidableEq

/-- The part of `*http.Response` the program uses.  The field `id` identifies
the body stream, so that reading and closing it can be followed. -/
structure Response where
  id : Nat
  StatusCode : Nat
  Body : String
  deriving DecidableEq

/-- The two output streams of the process. -/
inductive Stream where
  | stdout
  | stderr
  deriving DecidableEq

/-- Observable events, in the order they happen. -/
inductive Event where
  /-- A request handed to `http.Client.Do`; `id` numbers the requests. -/
  | request (id : Nat) (req : Request)
  /-- The JSON decoder reads the body of response `id`. -/
  | read (id : Nat)
  /-- The body of response `id` is closed. -/
  | close (id : Nat)
  /-- A call of `os.Setenv`. -/
  | setenv (key value : String)
  /-- One line written to a stream. -/
  | write (stream : Stream) (line : String)
  /-- A call of `time.Sleep`, in seconds. -/
  | sleep (seconds : Nat)
  /-- The process aborts with a panic. -/
  | panic (err : Error)
  deriving DecidableEq

/-- The state of the process and of what surrounds it. -/
structure World where
  /-- The process environment. -/
  env : List (String × String)
  /-- The network: the reply to the n-th request of the process. -/
  net : Nat → Request → Reply
  /-- How many requests were sent so far. -/
  requests : Nat
  /-- The responses received so far (their body streams). -/
  opened : List Nat
  /-- The body streams closed so far. -/
  closed : List Nat
  /-- The bodies whose `Close` the function `main` has deferred, latest first. -/
  deferred : List Nat
  /-- Everything observable that happened, oldest first. -/
  trace : List Event

/-- Append an event to the trace. -/
def World.emit (w : World) (e : Event) : World :=
  { w with trace := w.trace ++ [e] }

/-- The body streams that were handed out and not closed. -/
def World.openBodies (w : World) : List Nat :=
  w.opened.filter (fun id => id ∉ w.closed)

/-- Lookup in the environment (`os.Getenv`): the latest entry for the key,
and the empty string for a variable that is not set. -/
def getenv (w : World) (key : String) : String :=
  (w.env.lookup key).getD ""

/-- The NUL character. -/
def nul : Char := Char.ofNat 0

/-- Update of the environment (`os.Setenv`): the new entry goes in front of
the older ones.  As `syscall.Setenv` does, the call returns `EINVAL` and
leaves the environment as it is for an empty key, a key holding `=` or a NUL
byte, or a value holding a NUL byte (on every system but Plan 9).  The
callers in this program drop the error, so only the environment is returned. -/
def setenv (w : World) (key value : String) : World :=
  if key.data = [] ∨ '=' ∈ key.data ∨ nul ∈ key.data ∨ nul ∈ value.data then
    w.emit (.setenv key value)
  else
    { w with env := (key, value) :: w.env }.emit (.setenv key value)

/-- The function `fmt.Println` on one string: a line on standard output. -/
def fmtPrintln (w : World) (line : String) : World :=
  w.emit (.write .stdout line)

/-- The built-in `println` on one string: a line on standard error. -/
def println (w : World) (line : String) : World :=
  w.emit (.write .stderr line)

/-- The call `resp.Body.Close()`. -/
def closeBody (w : World) (id : Nat) : World :=
  { w with closed := id :: w.closed }.emit (.close id)

/-- The call `time.Sleep`, in seconds. -/
def sleep (w : World) (seconds : Nat) : World :=
  w.emit (.sleep seconds)

/-- The function `http.NewRequest` on a well-formed method and URL, which is
what the program passes. -/
def newRequest (method url : String) (form : List (String × String)) :
    Except Error Request :=
  .ok { method := method, url := url, header := [], form := form }

/-- The method `req.Header.Set`. -/
def Request.setHeader (req : Request) (key value : String) : Request :=
  { req with header := (key, value) :: req.header.filter (fun kv => kv.1 ≠ key) }

/-- The method `client.Do`: the request goes out and the network answers. -/
def clientDo (w : World) (req : Request) : Except Error Response × World :=
  match w.net w.requests req with
  | .failure msg =>
    (.error (.transport msg),
      { w with requests := w.requests + 1 }.emit (.request w.requests req))
  | .response status body =>
    (.ok { id := w.requests, StatusCode := status, Body := body },
      { w with requests := w.requests + 1, opened := w.requests :: w.opened }.emit
        (.request w.requests req))

/-- The bytes the decoder gets from a response body: none once it is closed. -/
def readBody (w : World) (resp : Response) : Except Error String × World :=
  if resp.id ∈ w.closed then (.error .closedBody, w.emit (.read resp.id))
  else (.ok resp.Body, w.emit (.read resp.id))

/-- The call `json.NewDecoder(resp.Body).Decode(&result)` for a zero
`RefreshResult`: the body is read and decoded. -/
def decodeRefreshBody (w : World) (resp : Response) : Except Error RefreshResult × World :=
  match readBody w resp with
  | (.error err, w1) => (.error err, w1)
  | (.ok body, w1) => (decodeRefreshResult body, w1)

/-- The call `json.NewDecoder(resp.Body).Decode(&result)` for a zero
`TasksResult`: the body is read and decoded. -/
def decodeTasksBody (lib : Lib) (w : World) (resp : Response) :
    Except Error TasksResult × World :=
  match readBody w resp with
  | (.error err, w1) => (.error err, w1)
  | (.ok body, w1) => (decodeTasksResult lib body, w1)

/-! ## The program -/

/-- The constant `tasksURL`. -/
def tasksURL : String := "https://graph.microsoft.com/beta/me/outlook/tasks"
/-- The constant `refreshTokenURL`. -/
def refreshTokenURL : String := "https://login.microsoftonline.com/common/oauth2/v2.0/token"
/-- The constant `redirectURL`. -/
def redirectURL : String := "https://login.microsoftonline.com/common/oauth2/nativeclient"

/-- The HTTP status 401 (`http.StatusUnauthorized`). -/
def StatusUnauthorized : Nat := 401

/-- The request `getTasks` sends. -/
def tasksRequest (accessToken : String) : Request :=
  { method := "GET", url := tasksURL,
    header := [("Authorization", "Bearer " ++ accessToken)], form := [] }

/-- The Go function `getTasks`. -/
def getTasks (w : World) (accessToken : String) : Except Error Response × World :=
  match newRequest "GET" tasksURL [] with
  | .error err => (.error err, w)
  | .ok req => clientDo w (req.setHeader "Authorization" ("Bearer " ++ accessToken))

/-- The three results of `refreshTokens`. -/
structure Refreshed where
  accessToken : String
  refreshToken : String
  err : Option Error
  deriving DecidableEq

/-- The form values `refreshTokens` posts. -/
def refreshForm (w : World) (oldRefreshToken : String) : List (String × String) :=
  [("client_id", getenv w "MS_TO-DO_CLIENT_ID"),
   ("scope", "offline_access user.read tasks.read"),
   ("refresh_token", oldRefreshToken),
   ("redirect_uri", redirectURL),
   ("grant_type", "refresh_token")]

/-- The request `refreshTokens` sends. -/
def refreshRequest (w : World) (oldRefreshToken : String) : Request :=
  { method := "POST", url := refreshTokenURL,
    header := [("Content-Type", "application/x-www-form-urlencoded")],
    form := refreshForm w oldRefreshToken }

/-- The Go function `refreshTokens`. -/
def refreshTokens (w : World) (oldRefreshToken : String) : Refreshed × World :=
  match newRequest "POST" refreshTokenURL (refreshForm w oldRefreshToken) with
  | .error err => ({ accessToken := "", refreshToken := "", err := some err }, w)
  | .ok req =>
    match clientDo w (req.setHeader "Content-Type" "application/x-www-form-urlencoded") with
    | (.error err, w1) => ({ accessToken := "", refreshToken := "", err := some err }, w1)
    | (.ok resp, w1) =>
      -- defer resp.Body.Close(): runs on each return below
      match decodeRefreshBody w1 resp with
      | (.error err, w2) =>
        ({ accessToken := "", refreshToken := "", err := some err }, closeBody w2 resp.id)
      | (.ok result, w2) =>
        ({ accessToken := result.AccessToken, refreshToken := result.RefreshToken,
           err := none }, closeBody w2 resp.id)

/-- The Go function `getTokens`. -/
def getTokens (w : World) : String × String :=
  (getenv w "MS_TO-DO_ACCESS_TOKEN", getenv w "MS_TO-DO_REFRESH_TOKEN")

/-- The Go function `setTokens`. -/
def setTokens (w : World) (accessToken refreshToken : String) : World :=
  setenv (setenv w "MS_TO-DO_ACCESS_TOKEN" accessToken) "MS_TO-DO_REFRESH_TOKEN" refreshToken

/-- The header line of `printTasks`. -/
def header : String := "print tasks status, name..."

/-- The line `printTasks` writes for one task. -/
def taskLine (v : Task) : String := v.Status ++ " : " ++ v.Subject

/-- The Go function `printTasks`. -/
def printTasks (lib : Lib) (w : World) (resp : Response) :
    Option Error × World :=
  match decodeTasksBody lib w resp with
  | (.error err, w1) => (some err, w1)
  | (.ok result, w1) =>
    (none,
      result.Value.elems.foldl (fun acc v => println acc (taskLine v)) (fmtPrintln w1 header))

/-- How far the process got. -/
inductive Outcome where
  /-- The loop is still running, in this state. -/
  | running (w : World)
  /-- The process aborted with a panic, leaving this state. -/
  | panicked (w : World)

/-- The statement `panic(err)` in `main`: the deferred calls run, latest
first, and the process aborts. -/
def panic (w : World) (err : Error) : World :=
  { (w.deferred.foldl closeBody w) with deferred := [] }.emit (.panic err)

/-- The statement `defer resp.Body.Close()` in `main`: the body of the
response at hand is bound now, the call runs when `main` returns or panics. -/
def deferClose (w : World) (id : Nat) : World :=
  { w with deferred := id :: w.deferred }

/-- The `if resp.StatusCode == http.StatusUnauthorized` block of `main`: the
response `main` goes on with, or the state the process panicked in. -/
def unauthorized (w : World) (resp : Response) (refreshToken : String) :
    Except World (Response × World) :=
  if resp.StatusCode = StatusUnauthorized then
    match refreshTokens (closeBody (fmtPrintln w "token unauthorized.") resp.id)
        refreshToken with
    | (r, w3) =>
      match r.err with
      | some err => .error (panic w3 err)
      | none =>
        match getTasks (setTokens w3 r.accessToken r.refreshToken) r.accessToken with
        | (.error err, w5) => .error (panic w5 err)
        | (.ok resp2, w5) => .ok (resp2, w5)
  else .ok (resp, w)

/-- One pass through the body of the `for` loop of `main`. -/
def iteration (lib : Lib) (w : World) : Outcome :=
  match getTasks w (getTokens w).1 with
  | (.error err, w1) => .panicked (panic w1 err)
  | (.ok resp, w1) =>
    match unauthorized (deferClose w1 resp.id) resp (getTokens w).2 with
    | .error w2 => .panicked w2
    | .ok (resp2, w2) =>
      -- the error result of printTasks is dropped
      .running (sleep (printTasks lib w2 resp2).2 10)

/-- The function `main`, followed for at most `n` passes of its loop.  The
loop has no exit: the process is either still running or has panicked. -/
def mainLoop (lib : Lib) : Nat → World → Outcome
  | 0, w => .running w
  | n + 1, w =>
    match iteration lib w with
    | .running w1 => mainLoop lib n w1
    | .panicked w1 => .panicked w1

/-- The state an outcome carries. -/
def Outcome.world : Outcome → World
  | .running w => w
  | .panicked w => w

/-- Whether the process has aborted. -/
def Outcome.aborted : Outcome → Bool
  | .running _ => false
  | .panicked _ => true

/-- A network that answers the requests from a list, in order, and refuses
the connection once the list is used up. -/
def scripted (replies : List Reply) : Nat → Request → Reply :=
  fun n _ => replies.getD n (.failure "connection refused")

/-- A fresh process with the given tokens in its environment. -/
def start (accessToken refreshToken : String) (net : Nat → Request → Reply) : World :=
  { env := [("MS_TO-DO_ACCESS_TOKEN", accessToken), ("MS_TO-DO_REFRESH_TOKEN", refreshToken)],
    net := net, requests := 0, opened := [], closed := [], deferred := [], trace := [] }

/-- The lines written to a stream, oldest first. -/
def linesOn (s : Stream) (evs : List Event) : List String :=
  evs.filterMap (fun e => match e with
    | .write s1 line => if s1 = s then some line else none
    | _ => none)

/-- The lines written to either stream, oldest first. -/
def linesWritten (evs : List Event) : List String :=
  evs.filterMap (fun e => match e with
    | .write _ line => some line
    | _ => none)

/-- The requests among some events, oldest first. -/
def requestsIn (evs : List Event) : List Request :=
  evs.filterMap (fun e => match e with
    | .request _ req => some req
    | _ => none)

/-- The calls of `os.Setenv` among some events, oldest first. -/
def setenvsIn (evs : List Event) : List (String × String) :=
  evs.filterMap (fun e => match e with
    | .setenv key value => some (key, value)
    | _ => none)

/-- The bodies read among some events, oldest first. -/
def readsIn (evs : List Event) : List Nat :=
  evs.filterMap (fun e => match e with
    | .read id => some id
    | _ => none)

/-- The bodies closed among some events, oldest first. -/
def closesIn (evs : List Event) : List Nat :=
  evs.filterMap (fun e => match e with
    | .close id => some id
    | _ => none)

/-- The write events of `printTasks`, given what the decoding returned: the
header and the task lines, or nothing after an error. -/
def printed (r : Except Error TasksResult) : List Event :=
  match r with
  | .ok result =>
    Event.write .stdout header
      :: result.Value.elems.map (fun v => Event.write .stderr (taskLine v))
  | .error _ => []

/-- The events of a later state that an earlier state has not seen. -/
def eventsSince (w w1 : World) : List Event :=
  w1.trace.drop w.trace.length

/-- Whether a text is well-formed JSON up to the end of its first value. -/
def validJSON (body : String) : Bool := (parse body).isSome

/-- The states the process can be in: every body stream it knows of belongs
to a request already sent. -/
def World.Valid (w : World) : Prop :=
  (∀ id ∈ w.closed, id < w.requests) ∧ (∀ id ∈ w.opened, id < w.requests)
    ∧ (∀ id ∈ w.deferred, id < w.requests)

instance (w : World) : Decidable w.Valid := by
  unfold World.Valid; infer_instance

/-! ## The states an unauthorized iteration passes through -/

/-- The state in which `main` calls `refreshTokens`: the first response is
bound to the deferred `Close`, the notice is printed and the body closed. -/
def atRefresh (w : World) : World :=
  closeBody
    (fmtPrintln (deferClose (getTasks w (getTokens w).1).2 w.requests) "token unauthorized.")
    w.requests

/-- What `refreshTokens` returns to `main` in that state. -/
def refreshResult (w : World) : Refreshed :=
  (refreshTokens (atRefresh w) (getTokens w).2).1

/-- The state after `main` has called `setTokens` on the refreshed pair. -/
def atStore (w : World) : World :=
  setTokens (refreshTokens (atRefresh w) (getTokens w).2).2
    (refreshResult w).accessToken (refreshResult w).refreshToken

/-- The state after the retried fetch, in which `main` calls `printTasks`. -/
def atRetry (w : World) : World :=
  (getTasks (atStore w) (refreshResult w).accessToken).2

/-! ## Scenarios -/

/-- A library that accepts every time string and every value.  The scenarios
below hold no time and no number for it to judge. -/
def permissive : Lib :=
  { timeOK := fun _ => true, anyOK := fun _ => true }

/-- The task-list body with the one task "Buy milk". -/
def buyMilkBody : String :=
  "\x7b\"value\":[\x7b\"status\":\"completed\",\"subject\":\"Buy milk\"\x7d]\x7d"

/-- What `buyMilkBody` decodes to. -/
def buyMilkResult : TasksResult :=
  { Value := { elems := [{ Status := "completed", Subject := "Buy milk" }] } }

/-- The elements of the array `value` of `buyMilkBody`. -/
def buyMilkEntries : List JSON :=
  [.obj [("status", .str "completed"), ("subject", .str "Buy milk")]]

/-- The members of `buyMilkBody`. -/
def buyMilkMembers : List (String × JSON) := [("value", .arr buyMilkEntries)]

/-- Three tasks, as (status, subject) pairs. -/
def threeTasks : List (String × String) :=
  [("completed", "Buy milk"), ("notStarted", "Pay rent"), ("inProgress", "Write report")]

/-- The body `renderTasks threeTasks`, spelled out. -/
def threeTasksBody : String :=
  "\x7b\"value\":[\x7b\"status\":\"completed\",\"subject\":\"Buy milk\"\x7d,"
    ++ "\x7b\"status\":\"notStarted\",\"subject\":\"Pay rent\"\x7d,"
    ++ "\x7b\"status\":\"inProgress\",\"subject\":\"Write report\"\x7d]\x7d"

/-- What `threeTasksBody` decodes to. -/
def threeTasksResult : TasksResult :=
  { Value := { elems := [{ Status := "completed", Subject := "Buy milk" },
      { Status := "notStarted", Subject := "Pay rent" },
      { Status := "inProgress", Subject := "Write report" }] } }

/-- A task list laid out with blanks and line breaks, with further fields,
a `null` entry and an entry without subject. -/
def spacedTasksBody : String :=
  "\x7b \"@odata.context\" : \"ctx\",\n  \"value\" : [\n"
    ++ "    \x7b \"id\": \"1\", \"status\": \"completed\", \"subject\": \"Buy milk\","
    ++ " \"hasAttachments\": false \x7d,\n"
    ++ "    \x7b \"subject\": \"Pay rent\", \"categories\": [\"home\", 1.5e3],"
    ++ " \"status\": \"notStarted\" \x7d,\n"
    ++ "    \x7b \"status\": \"inProgress\", \"body\": \x7b \"content\": \"x\" \x7d,"
    ++ " \"subject\": \"Write report\" \x7d,\n"
    ++ "    null,\n    \x7b \"Status\": \"waitingOnOthers\", \"dueDateTime\": null \x7d\n  ]\n\x7d\n"

/-- The body with the one task "Buy milk", followed by a member `"Value"`
that is `null`. -/
def shadowedBody : String :=
  "\x7b\"value\":[\x7b\"status\":\"completed\",\"subject\":\"Buy milk\"\x7d],"
    ++ "\"Value\":null\x7d"

/-- A body with two members `value`: an array of two entries with a status
each, then an array of one entry with a subject. -/
def repeatedValueBody : String :=
  "\x7b\"value\":[\x7b\"status\":\"a\"\x7d,\x7b\"status\":\"b\"\x7d],"
    ++ "\"value\":[\x7b\"subject\":\"c\"\x7d]\x7d"

/-- A process that has just fetched a response with the given body. -/
def fetched (status : Nat) (body : String) : World :=
  (getTasks (start "A1" "R1" (scripted [.response status body])) "A1").2

/-- The response such a process holds. -/
def fetchedResponse (status : Nat) (body : String) : Response :=
  { id := 0, StatusCode := status, Body := body }


/-- A process whose first fetch is answered with status 200 and one task. -/
def authorizedWorld : World :=
  start "A1" "R1" (scripted [.response 200 buyMilkBody])

/-- The refresh body of the second scenario. -/
def refreshBody : String :=
  "\x7b\"access_token\":\"A2\",\"refresh_token\":\"R2\"\x7d"

/-- A process whose first fetch is answered with 401 and an empty body, whose
refresh is answered with `refreshBody` and whose second fetch is answered
with an empty task list. -/
def unauthorizedWorld : World :=
  start "A1" "R1" (scripted [.response 401 "", .response 200 refreshBody,
    .response 200 "\x7b\"value\":[]\x7d"])

/-- What `refreshBody` decodes to. -/
def refreshBodyResult : RefreshResult :=
  { AccessToken := "A2", RefreshToken := "R2" }

/-- A refresh body whose refresh token holds a NUL character, written with
the escape `\u0000`. -/
def nulRefreshBody : String :=
  "\x7b\"access_token\":\"A2\",\"refresh_token\":\"R\\u00002\"\x7d"

/-- What `nulRefreshBody` decodes to. -/
def nulRefreshBodyResult : RefreshResult :=
  { AccessToken := "A2", RefreshToken := "R\x002" }

/-- The process of `unauthorizedWorld`, but with `nulRefreshBody` as the
answer to the refresh. -/
def nulWorld : World :=
  start "A1" "R1" (scripted [.response 401 "", .response 200 nulRefreshBody,
    .response 200 "\x7b\"value\":[]\x7d"])

/-- A process whose first fetch is refused by the network. -/
def refusedWorld : World :=
  start "A1" "R1" (scripted [])

/-- A process whose first fetch is answered with 401 and whose refresh is
answered with a body that is not JSON. -/
def failedRefreshWorld : World :=
  start "A1" "R1" (scripted [.response 401 "", .response 400 "not json"])

/-- A process whose first fetch is answered with 401, whose refresh succeeds
and whose retried fetch is refused by the network. -/
def failedRetryWorld : World :=
  start "A1" "R1" (scripted [.response 401 "", .response 200 refreshBody])

/-- The members of `refreshBody`. -/
def refreshBodyMembers : List (String × JSON) :=
  [("access_token", .str "A2"), ("refresh_token", .str "R2")]

/-- A refresh body that carries the four other fields as well. -/
def fullRefreshBody : String :=
  "\x7b\"token_type\":\"Bearer\",\"scope\":\"tasks.read\",\"expires_in\":3600,"
    ++ "\"ext_expires_in\":3600,\"access_token\":\"A2\",\"refresh_token\":\"R2\"\x7d"

/-- The members of `fullRefreshBody`. -/
def fullRefreshBodyMembers : List (String × JSON) :=
  [("token_type", .str "Bearer"), ("scope", .str "tasks.read"),
   ("expires_in", .num ['3', '6', '0', '0']), ("ext_expires_in", .num ['3', '6', '0', '0']),
   ("access_token", .str "A2"), ("refresh_token", .str "R2")]

/-- What `fullRefreshBody` decodes to. -/
def fullRefreshBodyResult : RefreshResult :=
  { TokenType := "Bearer", Scope := "tasks.read", ExpiresIn := 3600, ExtExpiresIn := 3600,
    AccessToken := "A2", RefreshToken := "R2" }

/-- A refresh body that is valid JSON, with `expires_in` sent as a string. -/
def stringExpiryBody : String :=
  "\x7b\"access_token\":\"A2\",\"refresh_token\":\"R2\",\"expires_in\":\"3600\"\x7d"

/-- The same body with `expires_in` sent as a number. -/
def numberExpiryBody : String :=
  "\x7b\"access_token\":\"A2\",\"refresh_token\":\"R2\",\"expires_in\":3600\x7d"

/-- A process about to refresh, with the given answer of the token endpoint. -/
def refreshing (status : Nat) (body : String) : World :=
  start "A1" "R1" (scripted [.response status body])

/-- An OAuth error body: a JSON object without tokens. -/
def invalidGrantBody : String := "\x7b\"error\":\"invalid_grant\"\x7d"

/-- The members of `invalidGrantBody`. -/
def invalidGrantMembers : List (String × JSON) := [("error", .str "invalid_grant")]

/-- A process whose first fetch is answered with 401, whose refresh is
answered with status 400 and `invalidGrantBody`, and whose retried fetch is
answered with 401 again. -/
def invalidGrantWorld : World :=
  start "A1" "R1" (scripted [.response 401 "", .response 400 invalidGrantBody,
    .response 401 ""])

/-- An error body without tokens whose `expires_in` is a string. -/
def illTypedErrorBody : String :=
  "\x7b\"error\":\"invalid_grant\",\"expires_in\":\"0\"\x7d"

/-- The members of `illTypedErrorBody`. -/
def illTypedErrorMembers : List (String × JSON) :=
  [("error", .str "invalid_grant"), ("expires_in", .str "0")]

/-- The process of `invalidGrantWorld`, with `illTypedErrorBody` as the
answer to the refresh. -/
def illTypedErrorWorld : World :=
  start "A1" "R1" (scripted [.response 401 "", .response 400 illTypedErrorBody,
    .response 401 ""])

/-- A process whose first fetch is answered with a body that is not JSON and
whose second fetch is answered with one task. -/
def garbledWorld : World :=
  start "A1" "R1" (scripted [.response 200 "not json", .response 200 buyMilkBody])

/-- A network that gives every request the same response. -/
def always (status : Nat) (body : String) : Nat → Request → Reply :=
  fun _ _ => .response status body
/-! ## Frame lemmas -/

section frame

variable (w : World)

@[simp] theorem emit_trace (e : Event) : (w.emit e).trace = w.trace ++ [e] := rfl
@[simp] theorem emit_env (e : Event) : (w.emit e).env = w.env := rfl
@[simp] theorem emit_net (e : Event) : (w.emit e).net = w.net := rfl
@[simp] theorem emit_requests (e : Event) : (w.emit e).requests = w.requests := rfl
@[simp] theorem emit_opened (e : Event) : (w.emit e).opened = w.opened := rfl
@[simp] theorem emit_closed (e : Event) : (w.emit e).closed = w.closed := rfl
@[simp] theorem emit_deferred (e : Event) : (w.emit e).deferred = w.deferred := rfl

@[simp] theorem getenv_emit (e : Event) (key : String) : getenv (w.emit e) key = getenv w key :=
  rfl

theorem eventsSince_append (w1 : World) (evs : List Event) (h : w1.trace = w.trace ++ evs) :
    eventsSince w w1 = evs := by
  simp [eventsSince, h]

end frame

/-! ## Decoding -/

theorem Except.map_ok_inv {ε α β : Type} (g : α → β) (x : Except ε α) (y : β)
    (h : Except.map g x = .ok y) : ∃ a, x = .ok a ∧ g a = y := by
  cases x with
  | error e => simp [Except.map] at h
  | ok a => exact ⟨a, rfl, by simpa [Except.map] using h⟩

/-- A fold in `Except` that succeeds on a non-empty list: its first step
succeeded, and so did the fold over the rest. -/
theorem foldlM_cons_ok {α β : Type} (f : β → α → Except Error β) (b : β) (a : α)
    (as : List α) (r : β) (h : (a :: as).foldlM f b = .ok r) :
    ∃ b1, f b a = .ok b1 ∧ as.foldlM f b1 = .ok r := by
  rw [List.foldlM_cons] at h
  cases hfa : f b a with
  | error e => rw [hfa] at h; cases h
  | ok b1 => rw [hfa] at h; exact ⟨b1, rfl, h⟩

theorem storeString_fst (field : String) (v : JSON) (cur : String) (saved : Option Error) :
    (storeString field v cur saved).1 = (storeString field v cur none).1 := by
  cases v <;> rfl

theorem stringOf_nil (name init : String) : stringOf name [] init = init := rfl

/-! ### The refresh response -/

/-- One member stored into a `RefreshResult`: never a hard error, and the
two tokens change only through a member stored into their own field. -/
theorem RefreshResult.setField_tokens (f : String) (v : JSON)
    (st : RefreshResult × Option Error) :
    ∃ st1 : RefreshResult × Option Error,
      RefreshResult.setField f v st = .ok st1
        ∧ (f = "access_token" →
            st1.1.AccessToken = (storeString "access_token" v st.1.AccessToken none).1)
        ∧ (f ≠ "access_token" → st1.1.AccessToken = st.1.AccessToken)
        ∧ (f = "refresh_token" →
            st1.1.RefreshToken = (storeString "refresh_token" v st.1.RefreshToken none).1)
        ∧ (f ≠ "refresh_token" → st1.1.RefreshToken = st.1.RefreshToken) := by
  unfold RefreshResult.setField
  split_ifs with h1 h2 h3 h4 h5 h6
  · subst h1
    exact ⟨_, rfl, fun h => absurd h (by decide), fun _ => rfl,
      fun h => absurd h (by decide), fun _ => rfl⟩
  · subst h2
    exact ⟨_, rfl, fun h => absurd h (by decide), fun _ => rfl,
      fun h => absurd h (by decide), fun _ => rfl⟩
  · subst h3
    exact ⟨_, rfl, fun h => absurd h (by decide), fun _ => rfl,
      fun h => absurd h (by decide), fun _ => rfl⟩
  · subst h4
    exact ⟨_, rfl, fun h => absurd h (by decide), fun _ => rfl,
      fun h => absurd h (by decide), fun _ => rfl⟩
  · subst h5
    exact ⟨_, rfl, fun _ => storeString_fst _ _ _ _, fun h => absurd rfl h,
      fun h => absurd h (by decide), fun _ => rfl⟩
  · subst h6
    exact ⟨_, rfl, fun h => absurd h (by decide), fun _ => rfl,
      fun _ => storeString_fst _ _ _ _, fun h => absurd rfl h⟩
  · exact ⟨_, rfl, fun h => absurd h h5, fun _ => rfl, fun h => absurd h h6, fun _ => rfl⟩

/-- The tokens a run of members leaves in a `RefreshResult`. -/
theorem refresh_fold_tokens (kvs : List (String × JSON)) (st : RefreshResult × Option Error) :
    ∃ st1 : RefreshResult × Option Error,
      kvs.foldlM
          (fun acc kv =>
            match findField refreshFields kv.1 with
            | none => Except.ok acc
            | some f => RefreshResult.setField f kv.2 acc)
          st = .ok st1
        ∧ st1.1.AccessToken
            = stringOf "access_token" (membersOf refreshFields "access_token" kvs)
                st.1.AccessToken
        ∧ st1.1.RefreshToken
            = stringOf "refresh_token" (membersOf refreshFields "refresh_token" kvs)
                st.1.RefreshToken := by
  induction kvs generalizing st with
  | nil => exact ⟨st, rfl, rfl, rfl⟩
  | cons kv kvs ih =>
    rcases hf : findField refreshFields kv.1 with _ | f
    · obtain ⟨st2, h2, ha, hr⟩ := ih st
      refine ⟨st2, ?_, ?_, ?_⟩
      · simp only [List.foldlM_cons, hf]; exact h2
      · rw [ha]; simp [membersOf, List.filter, hf]
      · rw [hr]; simp [membersOf, List.filter, hf]
    · obtain ⟨st1, h1, ha1, ha0, hr1, hr0⟩ := RefreshResult.setField_tokens f kv.2 st
      obtain ⟨st2, h2, ha, hr⟩ := ih st1
      refine ⟨st2, ?_, ?_, ?_⟩
      · simp only [List.foldlM_cons, hf, h1]; exact h2
      · rw [ha]
        by_cases hfa : f = "access_token"
        · rw [ha1 hfa]; simp [membersOf, List.filter, hf, hfa, stringOf]
        · rw [ha0 hfa]; simp [membersOf, List.filter, hf, hfa, stringOf]
      · rw [hr]
        by_cases hfr : f = "refresh_token"
        · rw [hr1 hfr]; simp [membersOf, List.filter, hf, hfr, stringOf]
        · rw [hr0 hfr]; simp [membersOf, List.filter, hf, hfr, stringOf]

/-- The tokens decoded from a body that is a JSON object: each is what the
members stored into its field leave in it, starting from the empty string. -/
theorem decodeRefreshResult_tokens (body : String) (kvs : List (String × JSON))
    (result : RefreshResult) (hscan : scanBody body = .ok (.obj kvs))
    (hdec : decodeRefreshResult body = .ok result) :
    result.AccessToken
        = stringOf "access_token" (membersOf refreshFields "access_token" kvs) ""
      ∧ result.RefreshToken
        = stringOf "refresh_token" (membersOf refreshFields "refresh_token" kvs) "" := by
  obtain ⟨st1, h1, ha, hr⟩ := refresh_fold_tokens kvs (({} : RefreshResult), none)
  unfold decodeRefreshResult at hdec
  rw [hscan] at hdec
  simp only [decodeStruct, h1] at hdec
  rcases st1 with ⟨r1, e1⟩
  cases e1 with
  | some e => simp [finish] at hdec
  | none =>
    simp only [finish, Except.ok.injEq] at hdec
    subst hdec
    exact ⟨ha, hr⟩

/-! ### The task list -/

/-- One member stored into a task: the status and the subject change only
through a member stored into their own field. -/
theorem Task.setField_lines (lib : Lib) (f : String) (v : JSON)
    (st st1 : Task × Option Error) (h : Task.setField lib f v st = .ok st1) :
    st1.1.Status
        = (if f = "status" then (storeString "status" v st.1.Status none).1
           else st.1.Status)
      ∧ st1.1.Subject
        = (if f = "subject" then (storeString "subject" v st.1.Subject none).1
           else st.1.Subject) := by
  unfold Task.setField at h
  by_cases h1 : f = "@odata.etag"
  · rw [if_pos h1] at h
    cases h
    subst h1
    exact ⟨by simp +decide [storeString_fst _ _ _ st.2],
      by simp +decide [storeString_fst _ _ _ st.2]⟩
  rw [if_neg h1] at h
  by_cases h2 : f = "id"
  · rw [if_pos h2] at h
    cases h
    subst h2
    exact ⟨by simp +decide [storeString_fst _ _ _ st.2],
      by simp +decide [storeString_fst _ _ _ st.2]⟩
  rw [if_neg h2] at h
  by_cases h3 : f = "createdDateTime"
  · rw [if_pos h3] at h
    obtain ⟨a, -, rfl⟩ := Except.map_ok_inv _ _ _ h
    subst h3
    exact ⟨by simp +decide, by simp +decide⟩
  rw [if_neg h3] at h
  by_cases h4 : f = "lastModifiedDateTime"
  · rw [if_pos h4] at h
    obtain ⟨a, -, rfl⟩ := Except.map_ok_inv _ _ _ h
    subst h4
    exact ⟨by simp +decide, by simp +decide⟩
  rw [if_neg h4] at h
  by_cases h5 : f = "changeKey"
  · rw [if_pos h5] at h
    cases h
    subst h5
    exact ⟨by simp +decide [storeString_fst _ _ _ st.2],
      by simp +decide [storeString_fst _ _ _ st.2]⟩
  rw [if_neg h5] at h
  by_cases h6 : f = "categories"
  · rw [if_pos h6] at h
    cases h
    subst h6
    exact ⟨by simp +decide [storeString_fst _ _ _ st.2],
      by simp +decide [storeString_fst _ _ _ st.2]⟩
  rw [if_neg h6] at h
  by_cases h7 : f = "assignedTo"
  · rw [if_pos h7] at h
    cases h
    subst h7
    exact ⟨by simp +decide [storeString_fst _ _ _ st.2],
      by simp +decide [storeString_fst _ _ _ st.2]⟩
  rw [if_neg h7] at h
  by_cases h8 : f = "hasAttachments"
  · rw [if_pos h8] at h
    cases h
    subst h8
    exact ⟨by simp +decide [storeString_fst _ _ _ st.2],
      by simp +decide [storeString_fst _ _ _ st.2]⟩
  rw [if_neg h8] at h
  by_cases h9 : f = "importance"
  · rw [if_pos h9] at h
    cases h
    subst h9
    exact ⟨by simp +decide [storeString_fst _ _ _ st.2],
      by simp +decide [storeString_fst _ _ _ st.2]⟩
  rw [if_neg h9] at h
  by_cases h10 : f = "isReminderOn"
  · rw [if_pos h10] at h
    cases h
    subst h10
    exact ⟨by simp +decide [storeString_fst _ _ _ st.2],
      by simp +decide [storeString_fst _ _ _ st.2]⟩
  rw [if_neg h10] at h
  by_cases h11 : f = "owner"
  · rw [if_pos h11] at h
    cases h
    subst h11
    exact ⟨by simp +decide [storeString_fst _ _ _ st.2],
      by simp +decide [storeString_fst _ _ _ st.2]⟩
  rw [if_neg h11] at h
  by_cases h12 : f = "parentFolderId"
  · rw [if_pos h12] at h
    cases h
    subst h12
    exact ⟨by simp +decide [storeString_fst _ _ _ st.2],
      by simp +decide [storeString_fst _ _ _ st.2]⟩
  rw [if_neg h12] at h
  by_cases h13 : f = "sensitivity"
  · rw [if_pos h13] at h
    cases h
    subst h13
    exact ⟨by simp +decide [storeString_fst _ _ _ st.2],
      by simp +decide [storeString_fst _ _ _ st.2]⟩
  rw [if_neg h13] at h
  by_cases h14 : f = "status"
  · rw [if_pos h14] at h
    cases h
    subst h14
    exact ⟨by simp +decide [storeString_fst _ _ _ st.2],
      by simp +decide [storeString_fst _ _ _ st.2]⟩
  rw [if_neg h14] at h
  by_cases h15 : f = "subject"
  · rw [if_pos h15] at h
    cases h
    subst h15
    exact ⟨by simp +decide [storeString_fst _ _ _ st.2],
      by simp +decide [storeString_fst _ _ _ st.2]⟩
  rw [if_neg h15] at h
  by_cases h16 : f = "dueDateTime"
  · rw [if_pos h16] at h
    cases h
    subst h16
    exact ⟨by simp +decide [storeString_fst _ _ _ st.2],
      by simp +decide [storeString_fst _ _ _ st.2]⟩
  rw [if_neg h16] at h
  by_cases h17 : f = "recurrence"
  · rw [if_pos h17] at h
    cases h
    subst h17
    exact ⟨by simp +decide [storeString_fst _ _ _ st.2],
      by simp +decide [storeString_fst _ _ _ st.2]⟩
  rw [if_neg h17] at h
  by_cases h18 : f = "reminderDateTime"
  · rw [if_pos h18] at h
    cases h
    subst h18
    exact ⟨by simp +decide [storeString_fst _ _ _ st.2],
      by simp +decide [storeString_fst _ _ _ st.2]⟩
  rw [if_neg h18] at h
  by_cases h19 : f = "startDateTime"
  · rw [if_pos h19] at h
    cases h
    subst h19
    exact ⟨by simp +decide [storeString_fst _ _ _ st.2],
      by simp +decide [storeString_fst _ _ _ st.2]⟩
  rw [if_neg h19] at h
  by_cases h20 : f = "body"
  · rw [if_pos h20] at h
    obtain ⟨a, -, rfl⟩ := Except.map_ok_inv _ _ _ h
    subst h20
    exact ⟨by simp +decide, by simp +decide⟩
  rw [if_neg h20] at h
  by_cases h21 : f = "completedDateTime"
  · rw [if_pos h21] at h
    obtain ⟨a, -, rfl⟩ := Except.map_ok_inv _ _ _ h
    subst h21
    exact ⟨by simp +decide, by simp +decide⟩
  rw [if_neg h21] at h
  cases h
  exact ⟨by simp [h14], by simp [h15]⟩

/-- The status and the subject a run of members leaves in a task. -/
theorem task_fold_lines (lib : Lib) (members : List (String × JSON))
    (st st1 : Task × Option Error)
    (h : members.foldlM
          (fun acc kv =>
            match findField taskFields kv.1 with
            | none => Except.ok acc
            | some f => Task.setField lib f kv.2 acc)
          st = .ok st1) :
    st1.1.Status = stringOf "status" (membersOf taskFields "status" members) st.1.Status
      ∧ st1.1.Subject
        = stringOf "subject" (membersOf taskFields "subject" members) st.1.Subject := by
  induction members generalizing st with
  | nil =>
    simp only [List.foldlM_nil] at h
    cases h
    exact ⟨rfl, rfl⟩
  | cons kv members ih =>
    obtain ⟨st2, hstep, hrest⟩ := foldlM_cons_ok _ _ _ _ _ h
    obtain ⟨hs, hj⟩ := ih st2 hrest
    rcases hf : findField taskFields kv.1 with _ | f
    · rw [hf] at hstep
      cases hstep
      exact ⟨by rw [hs]; simp [membersOf, List.filter, hf],
        by rw [hj]; simp [membersOf, List.filter, hf]⟩
    · rw [hf] at hstep
      obtain ⟨hs2, hj2⟩ := Task.setField_lines lib f kv.2 st st2 hstep
      refine ⟨?_, ?_⟩
      · rw [hs, hs2]
        by_cases hfs : f = "status"
        · simp [membersOf, List.filter, hf, hfs, stringOf]
        · simp [membersOf, List.filter, hf, hfs, stringOf]
      · rw [hj, hj2]
        by_cases hfs : f = "subject"
        · simp [membersOf, List.filter, hf, hfs, stringOf]
        · simp [membersOf, List.filter, hf, hfs, stringOf]

/-- The line of a freshly decoded entry is the line of the element of the
payload it was decoded from. -/
theorem decodeTask_line (lib : Lib) (field : String) (x : JSON)
    (e : Option Error) (t : Task × Option Error)
    (h : decodeStruct field taskFields (Task.setField lib) x (({} : Task), e) = .ok t) :
    taskLine t.1 = payloadLine x := by
  cases x with
  | obj members =>
    obtain ⟨hs, hj⟩ := task_fold_lines lib members _ t h
    simp only [taskLine, payloadLine, hs, hj]
  | null => cases h; rfl
  | bool b => cases h; rfl
  | num lit => cases h; rfl
  | str s => cases h; rfl
  | arr xs => cases h; rfl

/-- The lines of the elements decoded into a backing array that holds no
entry: one per element of the array, in order. -/
theorem decodeElems_lines (lib : Lib) (field : String) (xs : List JSON)
    (acc r : List Task × Option Error)
    (h : decodeElems lib field xs [] acc = .ok r) :
    r.1.map taskLine = acc.1.map taskLine ++ xs.map payloadLine := by
  induction xs generalizing acc with
  | nil =>
    simp only [decodeElems] at h
    cases h
    simp
  | cons x xs ih =>
    simp only [decodeElems, List.headD_nil, List.tail_nil] at h
    rcases hstep : decodeStruct field taskFields (Task.setField lib) x (({} : Task), acc.2)
      with e | t
    · rw [hstep] at h; cases h
    · rw [hstep] at h
      have hl := decodeTask_line lib field x acc.2 t hstep
      rw [ih _ h]
      simp [hl]

/-- The lines of the slice `Value` after an array is stored into a slice
whose backing array holds no entry. -/
theorem storeTasks_lines (lib : Lib) (field : String) (xs : List JSON)
    (st st1 : TaskSlice × Option Error)
    (hempty : st.1.elems ++ st.1.spare = [])
    (h : storeTasks lib field (.arr xs) st = .ok st1) :
    st1.1.elems.map taskLine = xs.map payloadLine := by
  cases xs with
  | nil =>
    simp only [storeTasks] at h
    cases h
    rfl
  | cons x xs =>
    simp only [storeTasks, hempty] at h
    obtain ⟨r, hr, rfl⟩ := Except.map_ok_inv _ _ _ h
    have := decodeElems_lines lib field (x :: xs) _ r hr
    simpa using this

/-- One member stored into a `TasksResult`: `Value` changes only through a
member stored into the field `value`. -/
theorem TasksResult.setField_value (lib : Lib) (f : String) (v : JSON)
    (st st1 : TasksResult × Option Error)
    (h : TasksResult.setField lib f v st = .ok st1) :
    (f ≠ "value" → st1.1.Value = st.1.Value)
      ∧ (f = "value" → ∃ e : Option Error,
          storeTasks lib "value" v (st.1.Value, st.2) = .ok (st1.1.Value, e)) := by
  unfold TasksResult.setField at h
  by_cases h1 : f = "@odata.context"
  · rw [if_pos h1] at h
    cases h
    subst h1
    exact ⟨fun _ => rfl, fun h => absurd h (by decide)⟩
  rw [if_neg h1] at h
  by_cases h2 : f = "@odata.nextLink"
  · rw [if_pos h2] at h
    cases h
    subst h2
    exact ⟨fun _ => rfl, fun h => absurd h (by decide)⟩
  rw [if_neg h2] at h
  by_cases h3 : f = "value"
  · rw [if_pos h3] at h
    obtain ⟨a, ha, rfl⟩ := Except.map_ok_inv _ _ _ h
    subst h3
    exact ⟨fun h => absurd rfl h, fun _ => ⟨a.2, ha⟩⟩
  rw [if_neg h3] at h
  cases h
  exact ⟨fun _ => rfl, fun h => absurd h h3⟩

/-- Members not stored into `value` leave the slice as it is. -/
theorem tasksResult_fold_other (lib : Lib) (kvs : List (String × JSON))
    (st st1 : TasksResult × Option Error)
    (h : kvs.foldlM
          (fun acc kv =>
            match findField tasksFields kv.1 with
            | none => Except.ok acc
            | some f => TasksResult.setField lib f kv.2 acc)
          st = .ok st1)
    (hnone : membersOf tasksFields "value" kvs = []) :
    st1.1.Value = st.1.Value := by
  induction kvs generalizing st with
  | nil =>
    simp only [List.foldlM_nil] at h
    cases h
    rfl
  | cons kv kvs ih =>
    obtain ⟨st2, hstep, hfold⟩ := foldlM_cons_ok _ _ _ _ _ h
    rcases hf : findField tasksFields kv.1 with _ | f
    · rw [hf] at hstep
      cases hstep
      have hrest : membersOf tasksFields "value" kvs = [] := by
        simpa [membersOf, List.filter, hf] using hnone
      exact ih st hfold hrest
    · rw [hf] at hstep
      by_cases hfv : f = "value"
      · simp [membersOf, List.filter, hf, hfv] at hnone
      · have hrest : membersOf tasksFields "value" kvs = [] := by
          simpa [membersOf, List.filter, hf, hfv] using hnone
        rw [ih st2 hfold hrest]
        exact (TasksResult.setField_value lib f kv.2 st st2 hstep).1 hfv

/-- When exactly one member is stored into `value` and it is an array, the
lines of the decoded entries are the lines of its elements. -/
theorem tasksResult_fold_lines (lib : Lib) (kvs : List (String × JSON))
    (st st1 : TasksResult × Option Error) (key : String) (xs : List JSON)
    (hempty : st.1.Value.elems ++ st.1.Value.spare = [])
    (h : kvs.foldlM
          (fun acc kv =>
            match findField tasksFields kv.1 with
            | none => Except.ok acc
            | some f => TasksResult.setField lib f kv.2 acc)
          st = .ok st1)
    (hone : membersOf tasksFields "value" kvs = [(key, .arr xs)]) :
    st1.1.Value.elems.map taskLine = xs.map payloadLine := by
  induction kvs generalizing st with
  | nil => simp [membersOf] at hone
  | cons kv kvs ih =>
    obtain ⟨st2, hstep, hfold⟩ := foldlM_cons_ok _ _ _ _ _ h
    rcases hf : findField tasksFields kv.1 with _ | f
    · rw [hf] at hstep
      cases hstep
      have hrest : membersOf tasksFields "value" kvs = [(key, .arr xs)] := by
        simpa [membersOf, List.filter, hf] using hone
      exact ih st hempty hfold hrest
    · rw [hf] at hstep
      by_cases hfv : f = "value"
      · have hsplit : kv = (key, .arr xs) ∧ membersOf tasksFields "value" kvs = [] := by
          simpa [membersOf, List.filter, hf, hfv] using hone
        obtain ⟨e, he⟩ := (TasksResult.setField_value lib f kv.2 st st2 hstep).2 hfv
        rw [hsplit.1] at he
        rw [tasksResult_fold_other lib kvs st2 st1 hfold hsplit.2]
        exact storeTasks_lines lib "value" xs _ _ hempty he
      · have hrest : membersOf tasksFields "value" kvs = [(key, .arr xs)] := by
          simpa [membersOf, List.filter, hf, hfv] using hone
        have hkeep := (TasksResult.setField_value lib f kv.2 st st2 hstep).1 hfv
        exact ih st2 (by rw [hkeep]; exact hempty) hfold hrest

/-- The lines of a decoded task list whose payload is an object with one
member stored into `value`, an array: one line per element, in order. -/
theorem decodeTasksResult_lines (lib : Lib) (body : String)
    (result : TasksResult) (kvs : List (String × JSON)) (key : String) (xs : List JSON)
    (hdec : decodeTasksResult lib body = .ok result)
    (hscan : scanBody body = .ok (.obj kvs))
    (hone : membersOf tasksFields "value" kvs = [(key, .arr xs)]) :
    result.Value.elems.map taskLine = xs.map payloadLine := by
  unfold decodeTasksResult at hdec
  rw [hscan] at hdec
  simp only [decodeStruct] at hdec
  rcases hfold : kvs.foldlM
      (fun acc kv =>
        match findField tasksFields kv.1 with
        | none => Except.ok acc
        | some f => TasksResult.setField lib f kv.2 acc)
      ((({} : TasksResult), none) : TasksResult × Option Error) with e | st1
  · rw [hfold] at hdec; simp [finish] at hdec
  · rw [hfold] at hdec
    have hl := tasksResult_fold_lines lib kvs
      ((({} : TasksResult), none) : TasksResult × Option Error) st1 key xs rfl hfold hone
    rcases st1 with ⟨r1, e1⟩
    cases e1 with
    | some e => simp [finish] at hdec
    | none =>
      simp only [finish, Except.ok.injEq] at hdec
      subst hdec
      exact hl

/-! ## The scanner and the decoder on task lists written out as text -/

theorem renderTasks_buyMilk : renderTasks [("completed", "Buy milk")] = buyMilkBody := by
  decide

theorem skipSpace_cons (c : Char) (cs : List Char) (h : isSpace c = false) :
    skipSpace (c :: cs) = c :: cs := by
  simp [skipSpace, h]

/-- The scanner reads a plain string up to its closing quote. -/
theorem scanString_plain (s rest : List Char)
    (h : ∀ c ∈ s, c ≠ quote ∧ c ≠ backslash ∧ ¬ c.toNat < 32) :
    scanString (s ++ quote :: rest) = some (s, rest) := by
  induction s with
  | nil =>
    rw [List.nil_append, scanString.eq_def]
    simp
  | cons c s ih =>
    have hc := h c (List.mem_cons_self c s)
    have hs := ih (fun d hd => h d (List.mem_cons_of_mem c hd))
    rw [List.cons_append, scanString.eq_def]
    simp [hc.1, hc.2.1, hc.2.2, hs]

/-- A string without backslash is left as it is by `unquote`. -/
theorem unquote_plain (s : List Char) (fuel : Nat) (hfuel : s.length ≤ fuel)
    (h : ∀ c ∈ s, c ≠ backslash) : unquote fuel s = s := by
  induction s generalizing fuel with
  | nil => cases fuel <;> rfl
  | cons c s ih =>
    cases fuel with
    | zero => simp at hfuel
    | succ fuel =>
      have hc := h c (List.mem_cons_self c s)
      have hs := ih fuel (by simpa using hfuel) (fun d hd => h d (List.mem_cons_of_mem c hd))
      rw [unquote.eq_def]
      simp [hc, hs]

/-- A string literal at the head of the text is scanned as that string. -/
theorem parseValue_string (fuel depth : Nat) (s : String) (rest : List Char)
    (h : plain s) :
    parseValue (fuel + 1) depth (quote :: (s.data ++ quote :: rest))
      = some (.str s, rest) := by
  have hq : isSpace quote = false := by decide
  have h1 : quote ≠ lbrace := by decide
  have h2 : quote ≠ '[' := by decide
  rw [parseValue, skipSpace_cons _ _ hq]
  simp only [h1, h2, if_false, if_true]
  rw [scanString_plain _ _ h]
  simp only [unquote_plain _ _ (le_refl _) (fun c hc => (h c hc).2.1)]

theorem plain_status : plain "status" := by decide
theorem plain_subject : plain "subject" := by decide
theorem plain_value : plain "value" := by decide

/-- A member `"key":"text"` followed by a comma at the head of an object. -/
theorem parseMembers_string_more (fuel depth : Nat) (key s : String) (rest : List Char)
    (hkey : plain key) (hs : plain s) :
    parseMembers (fuel + 2) depth
        (quote :: (key.data ++ quote :: ':' :: quote :: (s.data ++ quote :: ',' :: rest)))
      = (match parseMembers (fuel + 1) depth rest with
          | none => none
          | some (kvs, rest5) => some ((key, .str s) :: kvs, rest5)) := by
  have hq : isSpace quote = false := by decide
  have hcolon : isSpace ':' = false := by decide
  have hcomma : isSpace ',' = false := by decide
  rw [parseMembers, skipSpace_cons _ _ hq]
  simp only [ne_eq, not_true_eq_false, if_false]
  rw [scanString_plain _ _ hkey]
  simp only [skipSpace_cons _ _ hcolon, ne_eq, not_true_eq_false, if_false]
  rw [parseValue_string fuel depth s _ hs]
  simp only [skipSpace_cons _ _ hcomma, if_true,
    unquote_plain _ _ (le_refl _) (fun c hc => (hkey c hc).2.1)]

/-- A member `"key":"text"` followed by the closing brace. -/
theorem parseMembers_string_last (fuel depth : Nat) (key s : String) (rest : List Char)
    (hkey : plain key) (hs : plain s) :
    parseMembers (fuel + 2) depth
        (quote :: (key.data ++ quote :: ':' :: quote :: (s.data ++ quote :: rbrace :: rest)))
      = some ([(key, .str s)], rest) := by
  have hq : isSpace quote = false := by decide
  have hcolon : isSpace ':' = false := by decide
  have hbrace : isSpace rbrace = false := by decide
  have hne : rbrace ≠ ',' := by decide
  rw [parseMembers, skipSpace_cons _ _ hq]
  simp only [ne_eq, not_true_eq_false, if_false]
  rw [scanString_plain _ _ hkey]
  simp only [skipSpace_cons _ _ hcolon, ne_eq, not_true_eq_false, if_false]
  rw [parseValue_string fuel depth s _ hs]
  simp only [skipSpace_cons _ _ hbrace, hne, if_false, if_true,
    unquote_plain _ _ (le_refl _) (fun c hc => (hkey c hc).2.1)]

/-- The scanner on the text of one entry. -/
theorem parseValue_entry (fuel depth : Nat) (p : String × String) (rest : List Char)
    (h1 : plain p.1) (h2 : plain p.2) (hdepth : depth < maxNestingDepth) :
    parseValue (fuel + 4) depth (renderEntry p rest) = some (entryJSON p, rest) := by
  have hb : isSpace lbrace = false := by decide
  have hq : isSpace quote = false := by decide
  have hne : quote ≠ rbrace := by decide
  have hd : ¬ maxNestingDepth ≤ depth := Nat.not_le.mpr hdepth
  rw [renderEntry, parseValue, skipSpace_cons _ _ hb]
  simp only [if_true, hd, if_false, skipSpace_cons _ _ hq, hne]
  rw [parseMembers_string_more (fuel + 1) (depth + 1) "status" p.1 _ plain_status h1,
    parseMembers_string_last fuel (depth + 1) "subject" p.2 _ plain_subject h2]
  rfl

/-- The scanner on the text of the entries of an array, up to its `]`. -/
theorem parseElems_render (ps : List (String × String)) (p : String × String)
    (fuel depth : Nat) (rest : List Char)
    (hp : plain p.1 ∧ plain p.2) (hps : ∀ q ∈ ps, plain q.1 ∧ plain q.2)
    (hdepth : depth < maxNestingDepth) (hfuel : ps.length + 5 ≤ fuel) :
    parseElems fuel depth (renderEntry p (renderMore ps (']' :: rest)))
      = some (entryJSON p :: ps.map entryJSON, rest) := by
  have hclose : isSpace ']' = false := by decide
  have hcomma : isSpace ',' = false := by decide
  have hne : ']' ≠ ',' := by decide
  induction ps generalizing p fuel with
  | nil =>
    obtain ⟨k, rfl⟩ : ∃ k, fuel = k + 5 := ⟨fuel - 5, by simp at hfuel; omega⟩
    rw [parseElems, parseValue_entry k depth p _ hp.1 hp.2 hdepth]
    simp only [renderMore, skipSpace_cons _ _ hclose, hne, if_false, if_true, List.map_nil]
  | cons q qs ih =>
    obtain ⟨k, rfl⟩ : ∃ k, fuel = k + 5 := ⟨fuel - 5, by simp at hfuel; omega⟩
    have hq := hps q (List.mem_cons_self q qs)
    have hqs : ∀ r ∈ qs, plain r.1 ∧ plain r.2 :=
      fun r hr => hps r (List.mem_cons_of_mem q hr)
    rw [parseElems, parseValue_entry k depth p _ hp.1 hp.2 hdepth]
    simp only [renderMore, skipSpace_cons _ _ hcomma, if_true]
    rw [ih q (k + 4) hq hqs (by simp at hfuel ⊢; omega)]
    simp

theorem renderEntry_length (p : String × String) (rest : List Char) :
    rest.length ≤ (renderEntry p rest).length := by
  simp [renderEntry]
  omega

theorem renderMore_length (ps : List (String × String)) (rest : List Char) :
    ps.length + rest.length ≤ (renderMore ps rest).length := by
  induction ps with
  | nil => simp [renderMore]
  | cons q qs ih =>
    have := renderEntry_length q (renderMore qs rest)
    simp [renderMore]
    omega

theorem renderEntries_length (ps : List (String × String)) (rest : List Char) :
    ps.length + rest.length ≤ (renderEntries ps rest).length + 1 := by
  cases ps with
  | nil => simp [renderEntries]
  | cons p ps =>
    have h1 := renderEntry_length p (renderMore ps rest)
    have h2 := renderMore_length ps rest
    simp [renderEntries]
    omega

/-- The scanner on a task list written out as text: the object with the one
member `value`, an array with the entries in the order they were written. -/
theorem scanBody_renderTasks (ps : List (String × String))
    (hps : ∀ q ∈ ps, plain q.1 ∧ plain q.2) :
    scanBody (renderTasks ps) = .ok (.obj [("value", .arr (ps.map entryJSON))]) := by
  have hb : isSpace lbrace = false := by decide
  have hq : isSpace quote = false := by decide
  have hcolon : isSpace ':' = false := by decide
  have hopen : isSpace '[' = false := by decide
  have hclose : isSpace ']' = false := by decide
  have hrb : isSpace rbrace = false := by decide
  have hne : quote ≠ rbrace := by decide
  have hne2 : '[' ≠ lbrace := by decide
  have hne3 : rbrace ≠ ',' := by decide
  have hne4 : lbrace ≠ ']' := by decide
  have hlen := renderEntries_length ps [']', rbrace]
  have hparse : parse (renderTasks ps) = some (.obj [("value", .arr (ps.map entryJSON))]) := by
    unfold parse
    obtain ⟨k, hk⟩ : ∃ k, (renderTasks ps).length + 1 = k + (ps.length + 8) :=
      ⟨(renderTasks ps).length + 1 - (ps.length + 8), by
        simp [renderTasks, String.length] at hlen ⊢; omega⟩
    rw [hk]
    have hval : parseValue (k + (ps.length + 8)) 0 (renderTasks ps).data
        = some (.obj [("value", .arr (ps.map entryJSON))], []) := by
      show parseValue (k + ps.length + 7 + 1) 0 _ = _
      rw [renderTasks, parseValue, skipSpace_cons _ _ hb]
      simp only [if_true, skipSpace_cons _ _ hq, hne, if_false]
      have h0 : ¬ maxNestingDepth ≤ 0 := by decide
      simp only [h0, if_false]
      rw [parseMembers, skipSpace_cons _ _ hq]
      simp only [ne_eq, not_true_eq_false, if_false]
      rw [scanString_plain _ _ plain_value]
      simp only [skipSpace_cons _ _ hcolon, ne_eq, not_true_eq_false, if_false]
      rw [parseValue, skipSpace_cons _ _ hopen]
      simp only [hne2, if_false, if_true]
      have h1 : ¬ maxNestingDepth ≤ 0 + 1 := by decide
      simp only [h1, if_false]
      cases ps with
      | nil =>
        simp only [renderEntries, skipSpace_cons _ _ hclose, if_true, skipSpace_cons _ _ hrb,
          hne3, if_false, List.map_nil,
          unquote_plain _ _ (le_refl _) (fun c hc => (plain_value c hc).2.1)]
      | cons p ps =>
        have hp := hps p (List.mem_cons_self p ps)
        have hrest : ∀ q ∈ ps, plain q.1 ∧ plain q.2 :=
          fun q hq => hps q (List.mem_cons_of_mem p hq)
        have hhead : skipSpace (renderEntries (p :: ps) [']', rbrace])
            = lbrace :: (renderEntry p (renderMore ps [']', rbrace])).tail := by
          simp only [renderEntries, renderEntry, skipSpace_cons _ _ hb, List.tail_cons]
        rw [hhead]
        simp only [hne4, if_false]
        have hback : lbrace :: (renderEntry p (renderMore ps [']', rbrace])).tail
            = renderEntry p (renderMore ps (']' :: [rbrace])) := by
          simp only [renderEntry, List.tail_cons]
        rw [hback, parseElems_render ps p _ (0 + 1 + 1) [rbrace] hp hrest (by decide)
          (by simp; omega)]
        simp only [skipSpace_cons _ _ hrb, hne3, if_false, if_true,
          unquote_plain _ _ (le_refl _) (fun c hc => (plain_value c hc).2.1)]
        rfl
    rw [hval]
    rfl
  simp only [scanBody, hparse]

theorem findField_status : findField taskFields "status" = some "status" := by decide
theorem findField_subject : findField taskFields "subject" = some "subject" := by decide
theorem findField_value : findField tasksFields "value" = some "value" := by decide

/-- The line of an entry written out with a status and a subject. -/
theorem payloadLine_entryJSON (p : String × String) :
    payloadLine (entryJSON p) = p.1 ++ " : " ++ p.2 := by
  simp [payloadLine, entryJSON, membersOf, findField_status, findField_subject, stringOf,
    storeString]

/-- An entry written out with a status and a subject decodes, into a zero
entry, to the entry with that status and that subject. -/
theorem decodeStruct_entryJSON (lib : Lib) (field : String) (p : String × String)
    (saved : Option Error) :
    decodeStruct field taskFields (Task.setField lib) (entryJSON p) (({} : Task), saved)
      = .ok ({ Status := p.1, Subject := p.2 }, saved) := by
  simp +decide [decodeStruct, entryJSON, findField_status, findField_subject, Task.setField,
    storeString, List.foldlM, bind, Except.bind, pure, Except.pure]

theorem decodeElems_entries (lib : Lib) (field : String) (ps : List (String × String))
    (acc : List Task) (saved : Option Error) :
    decodeElems lib field (ps.map entryJSON) [] (acc, saved)
      = .ok (acc ++ ps.map (fun p => ({ Status := p.1, Subject := p.2 } : Task)), saved) := by
  induction ps generalizing acc with
  | nil => simp [decodeElems]
  | cons p ps ih =>
    simp only [List.map_cons, decodeElems, List.headD_nil, List.tail_nil,
      decodeStruct_entryJSON, ih]
    simp

/-- A task list written out as text decodes to its entries, in order. -/
theorem decodeTasksResult_renderTasks (lib : Lib) (ps : List (String × String))
    (hps : ∀ q ∈ ps, plain q.1 ∧ plain q.2) :
    decodeTasksResult lib (renderTasks ps)
      = .ok { Value := { elems := ps.map (fun p => ({ Status := p.1, Subject := p.2 } : Task)) } } := by
  unfold decodeTasksResult
  rw [scanBody_renderTasks ps hps]
  cases ps with
  | nil =>
    simp +decide [decodeStruct, findField_value, TasksResult.setField, storeTasks, finish,
      List.foldlM, bind, Except.bind, Except.map, pure, Except.pure]
  | cons p ps =>
    have h := decodeElems_entries lib "value" (p :: ps) [] none
    simp only [List.map_cons] at h
    simp +decide [decodeStruct, findField_value, TasksResult.setField, storeTasks, finish,
      List.foldlM, bind, Except.bind, Except.map, pure, Except.pure, h]

/-! ## The result printer -/

theorem readBody_world (w : World) (resp : Response) :
    (readBody w resp).2 = w.emit (.read resp.id) := by
  unfold readBody; split <;> rfl

theorem decodeTasksBody_world (lib : Lib) (w : World) (resp : Response) :
    (decodeTasksBody lib w resp).2 = w.emit (.read resp.id) := by
  have h := readBody_world w resp
  unfold decodeTasksBody
  rcases hr : readBody w resp with ⟨r, w1⟩
  rw [hr] at h
  cases r <;> simpa using h

theorem decodeRefreshBody_world (w : World) (resp : Response) :
    (decodeRefreshBody w resp).2 = w.emit (.read resp.id) := by
  have h := readBody_world w resp
  unfold decodeRefreshBody
  rcases hr : readBody w resp with ⟨r, w1⟩
  rw [hr] at h
  cases r <;> simpa using h

theorem decodeTasksBody_open (lib : Lib) (w : World) (resp : Response)
    (h : resp.id ∉ w.closed) :
    (decodeTasksBody lib w resp).1 = decodeTasksResult lib resp.Body := by
  simp [decodeTasksBody, readBody, h]

theorem decodeRefreshBody_open (w : World) (resp : Response) (h : resp.id ∉ w.closed) :
    (decodeRefreshBody w resp).1 = decodeRefreshResult resp.Body := by
  simp [decodeRefreshBody, readBody, h]

/-- A body that decoded was read in full, and its text decodes. -/
theorem decodeTasksBody_ok_inv (lib : Lib) (w : World) (resp : Response)
    (result : TasksResult) (h : (decodeTasksBody lib w resp).1 = .ok result) :
    decodeTasksResult lib resp.Body = .ok result := by
  by_cases hc : resp.id ∈ w.closed
  · simp [decodeTasksBody, readBody, hc] at h
  · rw [decodeTasksBody_open lib w resp hc] at h
    exact h

/-- The state after the task lines are written: only the trace grows. -/
theorem foldl_println (vs : List Task) (w : World) :
    vs.foldl (fun acc v => println acc (taskLine v)) w
      = { w with trace := w.trace ++ vs.map (fun v => Event.write .stderr (taskLine v)) } := by
  induction vs generalizing w with
  | nil => simp
  | cons v vs ih =>
    rw [List.foldl_cons, ih]
    simp [println, World.emit]

theorem linesWritten_append (xs ys : List Event) :
    linesWritten (xs ++ ys) = linesWritten xs ++ linesWritten ys := by
  simp [linesWritten]

theorem linesOn_append (s : Stream) (xs ys : List Event) :
    linesOn s (xs ++ ys) = linesOn s xs ++ linesOn s ys := by
  simp [linesOn]

theorem linesWritten_taskLines (vs : List Task) :
    linesWritten (vs.map (fun v => Event.write .stderr (taskLine v))) = vs.map taskLine := by
  induction vs with
  | nil => rfl
  | cons v vs ih => simpa [linesWritten] using ih

theorem linesOn_stderr_taskLines (vs : List Task) :
    linesOn .stderr (vs.map (fun v => Event.write .stderr (taskLine v))) = vs.map taskLine := by
  induction vs with
  | nil => rfl
  | cons v vs ih => simpa [linesOn] using ih

theorem linesOn_stdout_taskLines (vs : List Task) :
    linesOn .stdout (vs.map (fun v => Event.write .stderr (taskLine v))) = [] := by
  induction vs with
  | nil => rfl
  | cons v vs ih => simp [linesOn]

/-- What `printTasks` does when the decoding succeeds. -/
theorem printTasks_ok (lib : Lib) (w : World) (resp : Response)
    (result : TasksResult) (hdec : (decodeTasksBody lib w resp).1 = .ok result) :
    printTasks lib w resp =
      (none, { w with trace := w.trace ++ Event.read resp.id :: Event.write .stdout header
                  :: result.Value.elems.map (fun v => Event.write .stderr (taskLine v)) }) := by
  have hw := decodeTasksBody_world lib w resp
  unfold printTasks
  rcases hr : decodeTasksBody lib w resp with ⟨r, w1⟩
  rw [hr] at hdec hw
  simp only at hdec hw
  subst hdec hw
  simp [foldl_println, fmtPrintln, World.emit]

/-- What `printTasks` does when the decoding fails. -/
theorem printTasks_error (lib : Lib) (w : World) (resp : Response)
    (err : Error) (hdec : (decodeTasksBody lib w resp).1 = .error err) :
    printTasks lib w resp = (some err, w.emit (.read resp.id)) := by
  have hw := decodeTasksBody_world lib w resp
  unfold printTasks
  rcases hr : decodeTasksBody lib w resp with ⟨r, w1⟩
  rw [hr] at hdec hw
  simp only at hdec hw
  subst hdec hw
  rfl

/-- The result printer on a task list written out as text: no error, and the
header followed by one line per entry, in the order they were written. -/
theorem printTasks_renderTasks (lib : Lib) (w : World) (resp : Response)
    (ps : List (String × String)) (hopen : resp.id ∉ w.closed)
    (hbody : resp.Body = renderTasks ps) (hps : ∀ q ∈ ps, plain q.1 ∧ plain q.2) :
    (printTasks lib w resp).1 = none
      ∧ linesWritten (eventsSince w (printTasks lib w resp).2)
          = "print tasks status, name..." :: ps.map (fun p => p.1 ++ " : " ++ p.2) := by
  have hdec : (decodeTasksBody lib w resp).1
      = .ok { Value := { elems := ps.map (fun p => ({ Status := p.1, Subject := p.2 } : Task)) } } := by
    rw [decodeTasksBody_open lib w resp hopen, hbody, decodeTasksResult_renderTasks lib ps hps]
  have hp := printTasks_ok lib w resp _ hdec
  refine ⟨by rw [hp], ?_⟩
  have hev : eventsSince w (printTasks lib w resp).2
      = Event.read resp.id :: Event.write .stdout header
          :: (ps.map (fun p => ({ Status := p.1, Subject := p.2 } : Task))).map
              (fun v => Event.write .stderr (taskLine v)) := by
    rw [hp]; exact eventsSince_append w _ _ rfl
  rw [hev]
  have := linesWritten_taskLines (ps.map (fun p => ({ Status := p.1, Subject := p.2 } : Task)))
  simp only [List.map_map] at this
  simpa [linesWritten, taskLine, header] using this

/-- C1, amended: when the body of the response decodes as a task list,
`printTasks` returns no error and writes exactly N+1 lines, N being the number
of entries of the decoded `Value`: the header, then for each entry, in order,
its status, " : " and its subject.  When the payload is an object with exactly
one member stored into `value`, an array, N is the length of that array and
the lines are those of its elements, in payload order.  In particular, for a
task list written out as text the lines are those of the entries as written. -/
theorem printTasks_writes_header_and_tasks (lib : Lib) (w : World)
    (resp : Response) (result : TasksResult)
    (hdec : (decodeTasksBody lib w resp).1 = .ok result) :
    (printTasks lib w resp).1 = none
      ∧ linesWritten (eventsSince w (printTasks lib w resp).2)
          = "print tasks status, name..."
              :: result.Value.elems.map (fun v => v.Status ++ " : " ++ v.Subject)
      ∧ (linesWritten (eventsSince w (printTasks lib w resp).2)).length
          = result.Value.elems.length + 1
      ∧ (∀ (kvs : List (String × JSON)) (key : String) (xs : List JSON),
          scanBody resp.Body = .ok (.obj kvs) →
          membersOf tasksFields "value" kvs = [(key, .arr xs)] →
          result.Value.elems.length = xs.length
            ∧ linesWritten (eventsSince w (printTasks lib w resp).2)
                = "print tasks status, name..." :: xs.map payloadLine)
      ∧ (∀ ps : List (String × String), (∀ q ∈ ps, plain q.1 ∧ plain q.2) →
          resp.Body = renderTasks ps →
          result.Value.elems.length = ps.length
            ∧ linesWritten (eventsSince w (printTasks lib w resp).2)
                = "print tasks status, name..." :: ps.map (fun p => p.1 ++ " : " ++ p.2)) := by
  have hp := printTasks_ok lib w resp result hdec
  have hev : eventsSince w (printTasks lib w resp).2
      = Event.read resp.id :: Event.write .stdout header
          :: result.Value.elems.map (fun v => Event.write .stderr (taskLine v)) := by
    rw [hp]; exact eventsSince_append w _ _ rfl
  have hl : linesWritten (eventsSince w (printTasks lib w resp).2)
      = header :: result.Value.elems.map taskLine := by
    rw [hev]
    have := linesWritten_taskLines result.Value.elems
    simpa [linesWritten] using this
  have hbody := decodeTasksBody_ok_inv lib w resp result hdec
  refine ⟨by rw [hp], ?_, ?_, ?_, ?_⟩
  · rw [hl]; rfl
  · rw [hl]; simp
  · intro kvs key xs hscan hone
    have hmap := decodeTasksResult_lines lib resp.Body result kvs key xs hbody hscan hone
    refine ⟨?_, ?_⟩
    · have := congrArg List.length hmap
      simpa using this
    · rw [hl, hmap]; rfl
  · intro ps hps hrender
    rw [hrender, decodeTasksResult_renderTasks lib ps hps] at hbody
    cases hbody
    refine ⟨by simp, ?_⟩
    rw [hl]
    simp [taskLine, header]

/-- C2: when the body of the response fails to decode as a task list,
`printTasks` returns the error and writes no line at all, neither a task line
nor the header. -/
theorem printTasks_decode_failure (lib : Lib) (w : World) (resp : Response)
    (err : Error) (hdec : (decodeTasksBody lib w resp).1 = .error err) :
    (printTasks lib w resp).1 = some err
      ∧ linesWritten (eventsSince w (printTasks lib w resp).2) = []
      ∧ eventsSince w (printTasks lib w resp).2 = [Event.read resp.id] := by
  have hp := printTasks_error lib w resp err hdec
  have hev : eventsSince w (printTasks lib w resp).2 = [Event.read resp.id] := by
    rw [hp]; exact eventsSince_append w _ _ rfl
  refine ⟨by rw [hp], ?_, hev⟩
  rw [hev]; rfl

/-- The state `printTasks` leaves: the body is read, then the lines are
written; nothing else changes. -/
theorem printTasks_world (lib : Lib) (w : World) (resp : Response) :
    (printTasks lib w resp).2 =
      { w with trace := w.trace ++ Event.read resp.id
                  :: printed (decodeTasksBody lib w resp).1 } := by
  rcases hr : (decodeTasksBody lib w resp).1 with err | result
  · rw [printTasks_error lib w resp err hr]; simp [printed, World.emit]
  · rw [printTasks_ok lib w resp result hr]; simp [printed]

/-! ### The result printer on concrete bodies -/

/-- Witness of C1: the body with the one task "Buy milk" decodes, and the
lines written are the header followed by exactly "completed : Buy milk"; a
body with three tasks gives the header and the three lines in payload order,
also when it is laid out with blanks and carries further fields. -/
theorem printTasks_writes_header_and_tasks_witness :
    ((decodeTasksBody permissive (fetched 200 buyMilkBody)
        (fetchedResponse 200 buyMilkBody)).1 = .ok buyMilkResult
      ∧ (printTasks permissive (fetched 200 buyMilkBody)
            (fetchedResponse 200 buyMilkBody)).1 = none
      ∧ linesWritten (eventsSince (fetched 200 buyMilkBody)
            (printTasks permissive (fetched 200 buyMilkBody)
              (fetchedResponse 200 buyMilkBody)).2)
          = ["print tasks status, name...", "completed : Buy milk"]
      ∧ (linesWritten (eventsSince (fetched 200 buyMilkBody)
            (printTasks permissive (fetched 200 buyMilkBody)
              (fetchedResponse 200 buyMilkBody)).2)).length = 1 + 1)
    ∧ ((scanBody (fetchedResponse 200 buyMilkBody).Body = .ok (.obj buyMilkMembers)
        ∧ membersOf tasksFields "value" buyMilkMembers = [("value", .arr buyMilkEntries)])
      ∧ buyMilkResult.Value.elems.length = buyMilkEntries.length
      ∧ linesWritten (eventsSince (fetched 200 buyMilkBody)
            (printTasks permissive (fetched 200 buyMilkBody)
              (fetchedResponse 200 buyMilkBody)).2)
          = "print tasks status, name..." :: buyMilkEntries.map payloadLine)
    ∧ ((decodeTasksBody permissive (fetched 200 (renderTasks threeTasks))
          (fetchedResponse 200 (renderTasks threeTasks))).1 = .ok threeTasksResult
      ∧ (∀ q ∈ threeTasks, plain q.1 ∧ plain q.2)
      ∧ renderTasks threeTasks = threeTasksBody
      ∧ threeTasksResult.Value.elems.length = 3
      ∧ linesWritten (eventsSince (fetched 200 (renderTasks threeTasks))
            (printTasks permissive (fetched 200 (renderTasks threeTasks))
              (fetchedResponse 200 (renderTasks threeTasks))).2)
          = ["print tasks status, name...", "completed : Buy milk", "notStarted : Pay rent",
              "inProgress : Write report"])
    ∧ ((decodeTasksBody permissive (fetched 200 spacedTasksBody)
          (fetchedResponse 200 spacedTasksBody)).1.toOption.isSome = true
      ∧ linesWritten (eventsSince (fetched 200 spacedTasksBody)
            (printTasks permissive (fetched 200 spacedTasksBody)
              (fetchedResponse 200 spacedTasksBody)).2)
          = ["print tasks status, name...", "completed : Buy milk", "notStarted : Pay rent",
              "inProgress : Write report", " : ", "waitingOnOthers : "]) :=
  ⟨⟨by rfl,
      (printTasks_writes_header_and_tasks permissive (fetched 200 buyMilkBody)
        (fetchedResponse 200 buyMilkBody) buyMilkResult (by rfl)).1,
      (printTasks_writes_header_and_tasks permissive (fetched 200 buyMilkBody)
        (fetchedResponse 200 buyMilkBody) buyMilkResult (by rfl)).2.1,
      (printTasks_writes_header_and_tasks permissive (fetched 200 buyMilkBody)
        (fetchedResponse 200 buyMilkBody) buyMilkResult (by rfl)).2.2.1⟩,
    ⟨⟨by rfl, by rfl⟩,
      (printTasks_writes_header_and_tasks permissive (fetched 200 buyMilkBody)
        (fetchedResponse 200 buyMilkBody) buyMilkResult (by rfl)).2.2.2.1
        buyMilkMembers "value" buyMilkEntries (by rfl) (by rfl)⟩,
    ⟨by rfl, by decide, by decide,
      (printTasks_writes_header_and_tasks permissive (fetched 200 (renderTasks threeTasks))
        (fetchedResponse 200 (renderTasks threeTasks)) threeTasksResult (by rfl)).2.2.2.2
        threeTasks (by decide) (by rfl)⟩,
    by decide⟩

/-- C1 as stated fails: in the body `shadowedBody` the array `value` has one
entry and the body decodes, but the later member `"Value": null` is stored
into the same field and empties the slice: the header is the only line.  And
in `repeatedValueBody` the second array `value` is decoded into the entries
the first one left in the slice: the one task line carries the status of the
first array and the subject of the second. -/
theorem printTasks_value_member_overridden :
    (scanBody shadowedBody = .ok (.obj [("value", .arr buyMilkEntries), ("Value", .null)])
      ∧ buyMilkEntries.length = 1
      ∧ (printTasks permissive (fetched 200 shadowedBody)
          (fetchedResponse 200 shadowedBody)).1 = none
      ∧ linesWritten (eventsSince (fetched 200 shadowedBody)
          (printTasks permissive (fetched 200 shadowedBody)
            (fetchedResponse 200 shadowedBody)).2) = ["print tasks status, name..."])
    ∧ (scanBody repeatedValueBody
          = .ok (.obj [("value", .arr [.obj [("status", .str "a")], .obj [("status", .str "b")]]),
              ("value", .arr [.obj [("subject", .str "c")]])])
      ∧ (printTasks permissive (fetched 200 repeatedValueBody)
          (fetchedResponse 200 repeatedValueBody)).1 = none
      ∧ linesWritten (eventsSince (fetched 200 repeatedValueBody)
          (printTasks permissive (fetched 200 repeatedValueBody)
            (fetchedResponse 200 repeatedValueBody)).2)
          = ["print tasks status, name...", "a : c"]) :=
  ⟨⟨by rfl, by rfl, by decide, by decide⟩, ⟨by rfl, by decide, by decide⟩⟩

/-- Witness of C2: a body that is not JSON and an empty body both fail to
decode, and nothing is written for either. -/
theorem printTasks_decode_failure_witness :
    ((decodeTasksBody permissive (fetched 200 "not json")
          (fetchedResponse 200 "not json")).1 = .error .malformed
        ∧ (printTasks permissive (fetched 200 "not json")
            (fetchedResponse 200 "not json")).1 = some .malformed
        ∧ linesWritten (eventsSince (fetched 200 "not json")
            (printTasks permissive (fetched 200 "not json")
              (fetchedResponse 200 "not json")).2) = []
        ∧ eventsSince (fetched 200 "not json")
            (printTasks permissive (fetched 200 "not json")
              (fetchedResponse 200 "not json")).2 = [Event.read 0])
      ∧ ((decodeTasksBody permissive (fetched 200 "") (fetchedResponse 200 "")).1
          = .error .eof
        ∧ (printTasks permissive (fetched 200 "") (fetchedResponse 200 "")).1
            = some .eof
        ∧ linesWritten (eventsSince (fetched 200 "")
            (printTasks permissive (fetched 200 "") (fetchedResponse 200 "")).2) = []
        ∧ eventsSince (fetched 200 "")
            (printTasks permissive (fetched 200 "") (fetchedResponse 200 "")).2
              = [Event.read 0]) :=
  ⟨⟨by rfl, printTasks_decode_failure permissive (fetched 200 "not json")
      (fetchedResponse 200 "not json") .malformed (by rfl)⟩,
   ⟨by rfl, printTasks_decode_failure permissive (fetched 200 "")
      (fetchedResponse 200 "") .eof (by rfl)⟩⟩

/-- C8, at the body with the one task "Buy milk": standard output receives
the header only; the task line goes to standard error. -/
theorem printTasks_task_lines_on_stderr :
    linesOn .stdout (eventsSince (fetched 200 buyMilkBody)
        (printTasks permissive (fetched 200 buyMilkBody)
          (fetchedResponse 200 buyMilkBody)).2) = ["print tasks status, name..."]
      ∧ linesOn .stderr (eventsSince (fetched 200 buyMilkBody)
        (printTasks permissive (fetched 200 buyMilkBody)
          (fetchedResponse 200 buyMilkBody)).2) = ["completed : Buy milk"] := by
  decide

/-! ## The fetcher and the refresher -/

theorem getTasks_eq (w : World) (accessToken : String) :
    getTasks w accessToken = clientDo w (tasksRequest accessToken) := by
  simp [getTasks, newRequest, Request.setHeader, tasksRequest]

theorem getTasks_response (w : World) (accessToken : String) (status : Nat) (body : String)
    (h : w.net w.requests (tasksRequest accessToken) = .response status body) :
    getTasks w accessToken =
      (.ok { id := w.requests, StatusCode := status, Body := body },
        { w with requests := w.requests + 1, opened := w.requests :: w.opened,
                 trace := w.trace ++ [Event.request w.requests (tasksRequest accessToken)] }) := by
  simp [getTasks_eq, clientDo, h, World.emit]

theorem getTasks_failure (w : World) (accessToken : String) (msg : String)
    (h : w.net w.requests (tasksRequest accessToken) = .failure msg) :
    getTasks w accessToken =
      (.error (.transport msg),
        { w with requests := w.requests + 1,
                 trace := w.trace ++ [Event.request w.requests (tasksRequest accessToken)] }) := by
  simp [getTasks_eq, clientDo, h, World.emit]

section getTasksFrame

variable (w : World) (accessToken : String)

@[simp] theorem getTasks_trace :
    (getTasks w accessToken).2.trace
      = w.trace ++ [Event.request w.requests (tasksRequest accessToken)] := by
  simp only [getTasks_eq, clientDo]; split <;> rfl

@[simp] theorem getTasks_env : (getTasks w accessToken).2.env = w.env := by
  simp only [getTasks_eq, clientDo]; split <;> rfl

@[simp] theorem getTasks_net : (getTasks w accessToken).2.net = w.net := by
  simp only [getTasks_eq, clientDo]; split <;> rfl

@[simp] theorem getTasks_requests :
    (getTasks w accessToken).2.requests = w.requests + 1 := by
  simp only [getTasks_eq, clientDo]; split <;> rfl

@[simp] theorem getTasks_closed : (getTasks w accessToken).2.closed = w.closed := by
  simp only [getTasks_eq, clientDo]; split <;> rfl

@[simp] theorem getTasks_deferred : (getTasks w accessToken).2.deferred = w.deferred := by
  simp only [getTasks_eq, clientDo]; split <;> rfl

theorem getTasks_ok (status : Nat) (body : String)
    (h : w.net w.requests (tasksRequest accessToken) = .response status body) :
    (getTasks w accessToken).1
      = .ok { id := w.requests, StatusCode := status, Body := body } := by
  rw [getTasks_response w accessToken status body h]

theorem getTasks_opened (status : Nat) (body : String)
    (h : w.net w.requests (tasksRequest accessToken) = .response status body) :
    (getTasks w accessToken).2.opened = w.requests :: w.opened := by
  rw [getTasks_response w accessToken status body h]

theorem getTasks_error (msg : String)
    (h : w.net w.requests (tasksRequest accessToken) = .failure msg) :
    (getTasks w accessToken).1 = .error (.transport msg) := by
  rw [getTasks_failure w accessToken msg h]

theorem getTasks_opened_failure (msg : String)
    (h : w.net w.requests (tasksRequest accessToken) = .failure msg) :
    (getTasks w accessToken).2.opened = w.opened := by
  rw [getTasks_failure w accessToken msg h]

end getTasksFrame

section smallFrame

variable (w : World)

@[simp] theorem deferClose_trace (id : Nat) : (deferClose w id).trace = w.trace := rfl
@[simp] theorem deferClose_env (id : Nat) : (deferClose w id).env = w.env := rfl
@[simp] theorem deferClose_net (id : Nat) : (deferClose w id).net = w.net := rfl
@[simp] theorem deferClose_requests (id : Nat) : (deferClose w id).requests = w.requests := rfl
@[simp] theorem deferClose_closed (id : Nat) : (deferClose w id).closed = w.closed := rfl
@[simp] theorem deferClose_opened (id : Nat) : (deferClose w id).opened = w.opened := rfl
@[simp] theorem deferClose_deferred (id : Nat) :
    (deferClose w id).deferred = id :: w.deferred := rfl

@[simp] theorem closeBody_trace (id : Nat) :
    (closeBody w id).trace = w.trace ++ [Event.close id] := rfl
@[simp] theorem closeBody_env (id : Nat) : (closeBody w id).env = w.env := rfl
@[simp] theorem closeBody_net (id : Nat) : (closeBody w id).net = w.net := rfl
@[simp] theorem closeBody_requests (id : Nat) : (closeBody w id).requests = w.requests := rfl
@[simp] theorem closeBody_closed (id : Nat) : (closeBody w id).closed = id :: w.closed := rfl
@[simp] theorem closeBody_opened (id : Nat) : (closeBody w id).opened = w.opened := rfl
@[simp] theorem closeBody_deferred (id : Nat) : (closeBody w id).deferred = w.deferred := rfl

@[simp] theorem sleep_trace (n : Nat) : (sleep w n).trace = w.trace ++ [Event.sleep n] := rfl
@[simp] theorem sleep_env (n : Nat) : (sleep w n).env = w.env := rfl
@[simp] theorem sleep_net (n : Nat) : (sleep w n).net = w.net := rfl
@[simp] theorem sleep_requests (n : Nat) : (sleep w n).requests = w.requests := rfl
@[simp] theorem sleep_closed (n : Nat) : (sleep w n).closed = w.closed := rfl
@[simp] theorem sleep_opened (n : Nat) : (sleep w n).opened = w.opened := rfl
@[simp] theorem sleep_deferred (n : Nat) : (sleep w n).deferred = w.deferred := rfl

@[simp] theorem fmtPrintln_trace (line : String) :
    (fmtPrintln w line).trace = w.trace ++ [Event.write .stdout line] := rfl
@[simp] theorem fmtPrintln_env (line : String) : (fmtPrintln w line).env = w.env := rfl
@[simp] theorem fmtPrintln_net (line : String) : (fmtPrintln w line).net = w.net := rfl
@[simp] theorem fmtPrintln_requests (line : String) :
    (fmtPrintln w line).requests = w.requests := rfl
@[simp] theorem fmtPrintln_closed (line : String) : (fmtPrintln w line).closed = w.closed := rfl
@[simp] theorem fmtPrintln_opened (line : String) : (fmtPrintln w line).opened = w.opened := rfl
@[simp] theorem fmtPrintln_deferred (line : String) :
    (fmtPrintln w line).deferred = w.deferred := rfl

variable (lib : Lib) (resp : Response)

@[simp] theorem printTasks_trace :
    (printTasks lib w resp).2.trace
      = w.trace ++ Event.read resp.id :: printed (decodeTasksBody lib w resp).1 := by
  rw [printTasks_world]
@[simp] theorem printTasks_env : (printTasks lib w resp).2.env = w.env := by
  rw [printTasks_world]
@[simp] theorem printTasks_net : (printTasks lib w resp).2.net = w.net := by
  rw [printTasks_world]
@[simp] theorem printTasks_requests : (printTasks lib w resp).2.requests = w.requests := by
  rw [printTasks_world]
@[simp] theorem printTasks_closed : (printTasks lib w resp).2.closed = w.closed := by
  rw [printTasks_world]
@[simp] theorem printTasks_opened : (printTasks lib w resp).2.opened = w.opened := by
  rw [printTasks_world]
@[simp] theorem printTasks_deferred : (printTasks lib w resp).2.deferred = w.deferred := by
  rw [printTasks_world]

end smallFrame

section projections

theorem requestsIn_printed (r : Except Error TasksResult) : requestsIn (printed r) = [] := by
  cases r <;> simp [requestsIn, printed, List.filterMap_map]

theorem setenvsIn_printed (r : Except Error TasksResult) : setenvsIn (printed r) = [] := by
  cases r <;> simp [setenvsIn, printed, List.filterMap_map]

theorem readsIn_printed (r : Except Error TasksResult) : readsIn (printed r) = [] := by
  cases r <;> simp [readsIn, printed, List.filterMap_map]

theorem closesIn_printed (r : Except Error TasksResult) : closesIn (printed r) = [] := by
  cases r <;> simp [closesIn, printed, List.filterMap_map]

theorem requestsIn_append (xs ys : List Event) :
    requestsIn (xs ++ ys) = requestsIn xs ++ requestsIn ys := by
  simp [requestsIn]

theorem setenvsIn_append (xs ys : List Event) :
    setenvsIn (xs ++ ys) = setenvsIn xs ++ setenvsIn ys := by
  simp [setenvsIn]

theorem readsIn_append (xs ys : List Event) :
    readsIn (xs ++ ys) = readsIn xs ++ readsIn ys := by
  simp [readsIn]

theorem closesIn_append (xs ys : List Event) :
    closesIn (xs ++ ys) = closesIn xs ++ closesIn ys := by
  simp [closesIn]

end projections

/-! ## The refresher -/

theorem refreshRequest_env (w w1 : World) (old : String) (h : w1.env = w.env) :
    refreshRequest w1 old = refreshRequest w old := by
  simp [refreshRequest, refreshForm, getenv, h]

theorem refreshTokens_failure (w : World) (old msg : String)
    (h : w.net w.requests (refreshRequest w old) = .failure msg) :
    refreshTokens w old =
      ({ accessToken := "", refreshToken := "", err := some (.transport msg) },
        { w with
          requests := w.requests + 1
          trace := w.trace ++ [Event.request w.requests (refreshRequest w old)] }) := by
  have hreq : (Request.mk "POST" refreshTokenURL [] (refreshForm w old)).setHeader
      "Content-Type" "application/x-www-form-urlencoded" = refreshRequest w old := by
    simp [Request.setHeader, refreshRequest]
  simp [refreshTokens, newRequest, hreq, clientDo, h, World.emit]

theorem refreshTokens_response (w : World) (old : String) (status : Nat) (body : String)
    (h : w.net w.requests (refreshRequest w old) = .response status body)
    (hopen : w.requests ∉ w.closed) :
    refreshTokens w old =
      (match decodeRefreshResult body with
        | .ok result =>
          { accessToken := result.AccessToken, refreshToken := result.RefreshToken,
            err := none }
        | .error err => { accessToken := "", refreshToken := "", err := some err },
        { w with
          requests := w.requests + 1
          opened := w.requests :: w.opened
          closed := w.requests :: w.closed
          trace := w.trace ++ [Event.request w.requests (refreshRequest w old),
            Event.read w.requests, Event.close w.requests] }) := by
  have hreq : (Request.mk "POST" refreshTokenURL [] (refreshForm w old)).setHeader
      "Content-Type" "application/x-www-form-urlencoded" = refreshRequest w old := by
    simp [Request.setHeader, refreshRequest]
  simp only [refreshTokens, newRequest, hreq, clientDo, h]
  simp only [decodeRefreshBody, readBody, World.emit, hopen, if_false]
  cases decodeRefreshResult body <;> simp [closeBody, World.emit]

/-! ## The token store -/

theorem accessKey_valid :
    ¬ ("MS_TO-DO_ACCESS_TOKEN".data = [] ∨ '=' ∈ "MS_TO-DO_ACCESS_TOKEN".data
        ∨ nul ∈ "MS_TO-DO_ACCESS_TOKEN".data) := by decide

theorem refreshKey_valid :
    ¬ ("MS_TO-DO_REFRESH_TOKEN".data = [] ∨ '=' ∈ "MS_TO-DO_REFRESH_TOKEN".data
        ∨ nul ∈ "MS_TO-DO_REFRESH_TOKEN".data) := by decide

section setenvFrame

variable (w : World) (key value : String)

@[simp] theorem setenv_trace :
    (setenv w key value).trace = w.trace ++ [Event.setenv key value] := by
  unfold setenv; split <;> rfl
@[simp] theorem setenv_net : (setenv w key value).net = w.net := by
  unfold setenv; split <;> rfl
@[simp] theorem setenv_requests : (setenv w key value).requests = w.requests := by
  unfold setenv; split <;> rfl
@[simp] theorem setenv_closed : (setenv w key value).closed = w.closed := by
  unfold setenv; split <;> rfl
@[simp] theorem setenv_opened : (setenv w key value).opened = w.opened := by
  unfold setenv; split <;> rfl
@[simp] theorem setenv_deferred : (setenv w key value).deferred = w.deferred := by
  unfold setenv; split <;> rfl

end setenvFrame

/-- Reading a variable back after `os.Setenv` on a well-formed key: the new
value if it holds no NUL, the old one otherwise; other variables are kept. -/
theorem getenv_setenv (w : World) (key value other : String)
    (hkey : ¬ (key.data = [] ∨ '=' ∈ key.data ∨ nul ∈ key.data)) :
    getenv (setenv w key value) other
      = if other = key then (if nul ∈ value.data then getenv w key else value)
        else getenv w other := by
  have hk1 : ¬ key.data = [] := fun h => hkey (Or.inl h)
  have hk2 : ¬ '=' ∈ key.data := fun h => hkey (Or.inr (Or.inl h))
  have hk3 : ¬ nul ∈ key.data := fun h => hkey (Or.inr (Or.inr h))
  by_cases hnul : nul ∈ value.data
  · by_cases hoth : other = key
    · simp [setenv, hnul, hoth, getenv]
    · simp [setenv, hnul, hoth, getenv]
  · by_cases hoth : other = key
    · simp [setenv, hk1, hk2, hk3, hnul, hoth, getenv, World.emit, List.lookup]
    · have h2 : (other == key) = false := by simpa using hoth
      simp [setenv, hk1, hk2, hk3, hnul, hoth, getenv, World.emit, List.lookup, h2]

section setTokensFrame

variable (w : World) (accessToken refreshToken : String)

@[simp] theorem setTokens_trace :
    (setTokens w accessToken refreshToken).trace
      = w.trace ++ [Event.setenv "MS_TO-DO_ACCESS_TOKEN" accessToken,
          Event.setenv "MS_TO-DO_REFRESH_TOKEN" refreshToken] := by
  simp [setTokens]
@[simp] theorem setTokens_net : (setTokens w accessToken refreshToken).net = w.net := by
  simp [setTokens]
@[simp] theorem setTokens_requests :
    (setTokens w accessToken refreshToken).requests = w.requests := by
  simp [setTokens]
@[simp] theorem setTokens_closed :
    (setTokens w accessToken refreshToken).closed = w.closed := by
  simp [setTokens]
@[simp] theorem setTokens_opened :
    (setTokens w accessToken refreshToken).opened = w.opened := by
  simp [setTokens]
@[simp] theorem setTokens_deferred :
    (setTokens w accessToken refreshToken).deferred = w.deferred := by
  simp [setTokens]

/-- What the token store holds after `setTokens`: each value that holds no
NUL character replaces the stored one. -/
theorem getTokens_setTokens :
    getTokens (setTokens w accessToken refreshToken)
      = (if nul ∈ accessToken.data then (getTokens w).1 else accessToken,
         if nul ∈ refreshToken.data then (getTokens w).2 else refreshToken) := by
  have hne : "MS_TO-DO_ACCESS_TOKEN" ≠ "MS_TO-DO_REFRESH_TOKEN" := by decide
  simp only [getTokens, setTokens]
  simp only [getenv_setenv _ _ _ _ refreshKey_valid, getenv_setenv _ _ _ _ accessKey_valid]
  simp [hne]

/-- Other variables of the environment are not touched by `setTokens`. -/
theorem getenv_setTokens (other : String) (h1 : other ≠ "MS_TO-DO_ACCESS_TOKEN")
    (h2 : other ≠ "MS_TO-DO_REFRESH_TOKEN") :
    getenv (setTokens w accessToken refreshToken) other = getenv w other := by
  simp only [setTokens]
  simp only [getenv_setenv _ _ _ _ refreshKey_valid, getenv_setenv _ _ _ _ accessKey_valid]
  simp [h1, h2]

end setTokensFrame

/-! ## One iteration of the loop -/

/-- The iteration when the first fetch answers with a status other than 401. -/
theorem iteration_authorized (lib : Lib) (w : World) (status : Nat)
    (body : String)
    (hfetch : w.net w.requests (tasksRequest (getTokens w).1) = .response status body)
    (hstatus : status ≠ 401) :
    iteration lib w
      = .running (sleep (printTasks lib
          (deferClose (getTasks w (getTokens w).1).2 w.requests)
          { id := w.requests, StatusCode := status, Body := body }).2 10) := by
  have h1 := getTasks_ok w _ status body hfetch
  unfold iteration
  rcases hg : getTasks w (getTokens w).1 with ⟨r, w1⟩
  rw [hg] at h1
  simp only at h1
  subst h1
  simp [unauthorized, StatusUnauthorized, hstatus]

/-- The iteration when the first fetch answers with status 401: what
happens next depends on the refresh and on the retried fetch. -/
theorem iteration_unauthorized (lib : Lib) (w : World) (body : String)
    (hfetch : w.net w.requests (tasksRequest (getTokens w).1) = .response 401 body) :
    iteration lib w =
      match (refreshResult w).err with
      | some err => .panicked (panic (refreshTokens (atRefresh w) (getTokens w).2).2 err)
      | none =>
        match getTasks (atStore w) (refreshResult w).accessToken with
        | (.error err, w5) => .panicked (panic w5 err)
        | (.ok resp2, w5) => .running (sleep (printTasks lib w5 resp2).2 10) := by
  have h1 := getTasks_ok w _ 401 body hfetch
  unfold iteration
  rcases hg : getTasks w (getTokens w).1 with ⟨r, w1⟩
  have hw1 : w1 = (getTasks w (getTokens w).1).2 := by rw [hg]
  rw [hg] at h1
  simp only at h1
  subst h1
  simp only [unauthorized, StatusUnauthorized, if_true]
  rw [hw1]
  change (match (match refreshTokens (atRefresh w) (getTokens w).2 with
      | (r, w3) =>
        match r.err with
        | some err => Except.error (panic w3 err)
        | none =>
          match getTasks (setTokens w3 r.accessToken r.refreshToken) r.accessToken with
          | (.error err, w5) => Except.error (panic w5 err)
          | (.ok resp2, w5) => Except.ok (resp2, w5)) with
    | .error w2 => Outcome.panicked w2
    | .ok (resp2, w2) => Outcome.running (sleep (printTasks lib w2 resp2).2 10)) = _
  unfold atStore refreshResult
  rcases refreshTokens (atRefresh w) (getTokens w).2 with ⟨r, w3⟩
  simp only
  cases r.err with
  | some err => rfl
  | none =>
    simp only
    rcases getTasks (setTokens w3 r.accessToken r.refreshToken) r.accessToken with ⟨r5, w5⟩
    cases r5 <;> rfl

section atRefreshFrame

variable (w : World)

@[simp] theorem atRefresh_trace :
    (atRefresh w).trace
      = w.trace ++ [Event.request w.requests (tasksRequest (getTokens w).1),
          Event.write .stdout "token unauthorized.", Event.close w.requests] := by
  simp [atRefresh]
@[simp] theorem atRefresh_env : (atRefresh w).env = w.env := by simp [atRefresh]
@[simp] theorem atRefresh_net : (atRefresh w).net = w.net := by simp [atRefresh]
@[simp] theorem atRefresh_requests : (atRefresh w).requests = w.requests + 1 := by
  simp [atRefresh]
@[simp] theorem atRefresh_closed : (atRefresh w).closed = w.requests :: w.closed := by
  simp [atRefresh]
@[simp] theorem atRefresh_deferred : (atRefresh w).deferred = w.requests :: w.deferred := by
  simp [atRefresh]

end atRefreshFrame

/-- The refresh inside an unauthorized iteration, when the token endpoint
answers: what `refreshTokens` returns and the state it leaves. -/
theorem refresh_in_iteration (w : World) (status : Nat) (body : String) (hv : w.Valid)
    (hrefresh : w.net (w.requests + 1) (refreshRequest w (getTokens w).2)
      = .response status body) :
    refreshTokens (atRefresh w) (getTokens w).2 =
      (match decodeRefreshResult body with
        | .ok result =>
          { accessToken := result.AccessToken, refreshToken := result.RefreshToken,
            err := none }
        | .error err => { accessToken := "", refreshToken := "", err := some err },
        { atRefresh w with
          requests := w.requests + 2
          opened := (w.requests + 1) :: (atRefresh w).opened
          closed := (w.requests + 1) :: w.requests :: w.closed
          trace := w.trace ++ [Event.request w.requests (tasksRequest (getTokens w).1),
            Event.write .stdout "token unauthorized.", Event.close w.requests,
            Event.request (w.requests + 1) (refreshRequest w (getTokens w).2),
            Event.read (w.requests + 1), Event.close (w.requests + 1)] }) := by
  have hopen : (atRefresh w).requests ∉ (atRefresh w).closed := by
    simp only [atRefresh_requests, atRefresh_closed, List.mem_cons, not_or]
    exact ⟨by omega, fun hc => by have := hv.1 _ hc; omega⟩
  have hreq : refreshRequest (atRefresh w) (getTokens w).2 = refreshRequest w (getTokens w).2 :=
    refreshRequest_env w _ _ (atRefresh_env w)
  have h := refreshTokens_response (atRefresh w) (getTokens w).2 status body
    (by rw [hreq, atRefresh_net, atRefresh_requests]; exact hrefresh) hopen
  rw [h, hreq]
  simp

/-- C7: when the first fetch of an iteration answers with a status other
than 401, the iteration sends that one request and no other, calls neither
`refreshTokens` nor `setTokens`, leaves the environment as it was, and
applies `printTasks` to that first response before it sleeps. -/
theorem authorized_iteration_prints_first_response (lib : Lib) (w : World)
    (status : Nat) (body : String) (hv : w.Valid)
    (hfetch : w.net w.requests (tasksRequest (getTokens w).1) = .response status body)
    (hstatus : status ≠ 401) :
    (getTasks w (getTokens w).1).1
        = .ok { id := w.requests, StatusCode := status, Body := body }
      ∧ iteration lib w
          = .running (sleep (printTasks lib
              (deferClose (getTasks w (getTokens w).1).2 w.requests)
              { id := w.requests, StatusCode := status, Body := body }).2 10)
      ∧ eventsSince w (iteration lib w).world
          = [Event.request w.requests (tasksRequest (getTokens w).1), Event.read w.requests]
              ++ printed (decodeTasksResult lib body) ++ [Event.sleep 10]
      ∧ requestsIn (eventsSince w (iteration lib w).world) = [tasksRequest (getTokens w).1]
      ∧ setenvsIn (eventsSince w (iteration lib w).world) = []
      ∧ (iteration lib w).world.env = w.env
      ∧ getTokens (iteration lib w).world = getTokens w := by
  have hopen : w.requests ∉ w.closed := fun hc => Nat.lt_irrefl _ (hv.1 _ hc)
  have hiter := iteration_authorized lib w status body hfetch hstatus
  have hdec : (decodeTasksBody lib (deferClose (getTasks w (getTokens w).1).2 w.requests)
      { id := w.requests, StatusCode := status, Body := body }).1
        = decodeTasksResult lib body :=
    decodeTasksBody_open lib _ _ (by simpa using hopen)
  have hev : eventsSince w (iteration lib w).world
      = [Event.request w.requests (tasksRequest (getTokens w).1), Event.read w.requests]
          ++ printed (decodeTasksResult lib body) ++ [Event.sleep 10] := by
    apply eventsSince_append
    rw [hiter]
    simp [Outcome.world, hdec]
  refine ⟨getTasks_ok w _ status body hfetch, hiter, hev, ?_, ?_, ?_, ?_⟩
  · rw [hev, requestsIn_append, requestsIn_append, requestsIn_printed]; rfl
  · rw [hev, setenvsIn_append, setenvsIn_append, setenvsIn_printed]; rfl
  · rw [hiter]; simp [Outcome.world]
  · rw [hiter]; simp [Outcome.world, getTokens, getenv]

/-- Witness of C7: a first fetch answered with status 200 and one task. -/
theorem authorized_iteration_prints_first_response_witness :
    authorizedWorld.Valid
      ∧ authorizedWorld.net authorizedWorld.requests (tasksRequest (getTokens authorizedWorld).1)
          = .response 200 buyMilkBody
      ∧ 200 ≠ 401
      ∧ ((getTasks authorizedWorld (getTokens authorizedWorld).1).1
          = .ok { id := authorizedWorld.requests, StatusCode := 200, Body := buyMilkBody }
        ∧ iteration permissive authorizedWorld
            = .running (sleep (printTasks permissive
                (deferClose (getTasks authorizedWorld (getTokens authorizedWorld).1).2
                  authorizedWorld.requests)
                { id := authorizedWorld.requests, StatusCode := 200, Body := buyMilkBody }).2 10)
        ∧ eventsSince authorizedWorld (iteration permissive authorizedWorld).world
            = [Event.request authorizedWorld.requests (tasksRequest (getTokens authorizedWorld).1),
                Event.read authorizedWorld.requests]
                ++ printed (decodeTasksResult permissive buyMilkBody) ++ [Event.sleep 10]
        ∧ requestsIn (eventsSince authorizedWorld (iteration permissive authorizedWorld).world)
            = [tasksRequest (getTokens authorizedWorld).1]
        ∧ setenvsIn (eventsSince authorizedWorld (iteration permissive authorizedWorld).world)
            = []
        ∧ (iteration permissive authorizedWorld).world.env = authorizedWorld.env
        ∧ getTokens (iteration permissive authorizedWorld).world
            = getTokens authorizedWorld) :=
  ⟨by decide, by decide, by decide,
    authorized_iteration_prints_first_response permissive authorizedWorld 200 buyMilkBody
      (by decide) (by decide) (by decide)⟩

/-- The state in which the retried fetch is sent, when the refresh succeeded. -/
theorem atStore_refreshed (w : World) (status : Nat) (body : String)
    (result : RefreshResult) (hv : w.Valid)
    (hrefresh : w.net (w.requests + 1) (refreshRequest w (getTokens w).2)
      = .response status body)
    (hdec : decodeRefreshResult body = .ok result) :
    refreshResult w
        = { accessToken := result.AccessToken, refreshToken := result.RefreshToken,
            err := none }
      ∧ (atStore w).trace
          = w.trace ++ [Event.request w.requests (tasksRequest (getTokens w).1),
              Event.write .stdout "token unauthorized.", Event.close w.requests,
              Event.request (w.requests + 1) (refreshRequest w (getTokens w).2),
              Event.read (w.requests + 1), Event.close (w.requests + 1),
              Event.setenv "MS_TO-DO_ACCESS_TOKEN" result.AccessToken,
              Event.setenv "MS_TO-DO_REFRESH_TOKEN" result.RefreshToken]
      ∧ (atStore w).net = w.net
      ∧ (atStore w).requests = w.requests + 2
      ∧ (atStore w).closed = (w.requests + 1) :: w.requests :: w.closed
      ∧ (atStore w).deferred = w.requests :: w.deferred
      ∧ getTokens (atStore w)
          = (if nul ∈ result.AccessToken.data then (getTokens w).1 else result.AccessToken,
             if nul ∈ result.RefreshToken.data then (getTokens w).2 else result.RefreshToken) := by
  have hr := refresh_in_iteration w status body hv hrefresh
  rw [hdec] at hr
  have hres : refreshResult w
      = { accessToken := result.AccessToken, refreshToken := result.RefreshToken,
          err := none } := by
    unfold refreshResult; rw [hr]
  refine ⟨hres, ?_, ?_, ?_, ?_, ?_, ?_⟩
  · unfold atStore; rw [hres, hr]; simp
  · unfold atStore; rw [hres, hr]; simp
  · unfold atStore; rw [hres, hr]; simp
  · unfold atStore; rw [hres, hr]; simp
  · unfold atStore; rw [hres, hr]; simp
  · unfold atStore; rw [hres, hr, getTokens_setTokens]
    simp [getTokens, getenv]

/-- C4, amended: in an iteration whose first fetch answers 401, whose refresh
succeeds with a pair and whose retried fetch returns a response of any status,
the refresh is sent with the refresh token read at the start, `setTokens` is
called with the new pair before the retried fetch is sent, the retried fetch
carries the new access token, and `printTasks` runs once, on the retried
response, with no second refresh.  From the call of `setTokens` on, the token
store holds each new token that has no NUL character in it, and the old one
otherwise; it holds the new pair when neither token has one. -/
theorem unauthorized_iteration_refreshes_and_retries (lib : Lib) (w : World)
    (body1 : String) (status2 : Nat) (body2 : String) (result : RefreshResult)
    (status3 : Nat) (body3 : String) (hv : w.Valid)
    (hfetch : w.net w.requests (tasksRequest (getTokens w).1) = .response 401 body1)
    (hrefresh : w.net (w.requests + 1) (refreshRequest w (getTokens w).2)
      = .response status2 body2)
    (hdec : decodeRefreshResult body2 = .ok result)
    (hretry : w.net (w.requests + 2) (tasksRequest result.AccessToken)
      = .response status3 body3) :
    refreshResult w
        = { accessToken := result.AccessToken, refreshToken := result.RefreshToken,
            err := none }
      ∧ iteration lib w
          = .running (sleep (printTasks lib (atRetry w)
              { id := w.requests + 2, StatusCode := status3, Body := body3 }).2 10)
      ∧ eventsSince w (iteration lib w).world
          = [Event.request w.requests (tasksRequest (getTokens w).1),
              Event.write .stdout "token unauthorized.", Event.close w.requests,
              Event.request (w.requests + 1) (refreshRequest w (getTokens w).2),
              Event.read (w.requests + 1), Event.close (w.requests + 1),
              Event.setenv "MS_TO-DO_ACCESS_TOKEN" result.AccessToken,
              Event.setenv "MS_TO-DO_REFRESH_TOKEN" result.RefreshToken,
              Event.request (w.requests + 2) (tasksRequest result.AccessToken),
              Event.read (w.requests + 2)]
              ++ printed (decodeTasksResult lib body3) ++ [Event.sleep 10]
      ∧ requestsIn (eventsSince w (iteration lib w).world)
          = [tasksRequest (getTokens w).1, refreshRequest w (getTokens w).2,
              tasksRequest result.AccessToken]
      ∧ readsIn (eventsSince w (iteration lib w).world) = [w.requests + 1, w.requests + 2]
      ∧ getTokens (atStore w)
          = (if nul ∈ result.AccessToken.data then (getTokens w).1 else result.AccessToken,
             if nul ∈ result.RefreshToken.data then (getTokens w).2 else result.RefreshToken)
      ∧ getTokens (iteration lib w).world = getTokens (atStore w)
      ∧ (nul ∉ result.AccessToken.data → nul ∉ result.RefreshToken.data →
          getTokens (atStore w) = (result.AccessToken, result.RefreshToken)
            ∧ getTokens (iteration lib w).world
                = (result.AccessToken, result.RefreshToken)) := by
  obtain ⟨hres, htrace, hnet, hreqs, hclosed, hdeferred, htokens⟩ :=
    atStore_refreshed w status2 body2 result hv hrefresh hdec
  have hretry2 : (atStore w).net (atStore w).requests (tasksRequest result.AccessToken)
      = .response status3 body3 := by rw [hnet, hreqs]; exact hretry
  have hg := getTasks_ok (atStore w) result.AccessToken status3 body3 hretry2
  rw [hreqs] at hg
  have hiter : iteration lib w
      = .running (sleep (printTasks lib (atRetry w)
          { id := w.requests + 2, StatusCode := status3, Body := body3 }).2 10) := by
    rw [iteration_unauthorized lib w body1 hfetch, hres]
    simp only
    unfold atRetry
    rw [hres]
    simp only
    rcases hg2 : getTasks (atStore w) result.AccessToken with ⟨r5, w5⟩
    rw [hg2] at hg
    simp only at hg
    subst hg
    rfl
  have hopen : w.requests + 2 ∉ (atRetry w).closed := by
    unfold atRetry
    rw [getTasks_closed, hclosed]
    simp only [List.mem_cons, not_or]
    exact ⟨by omega, by omega, fun hc => by have := hv.1 _ hc; omega⟩
  have hbody : (decodeTasksBody lib (atRetry w)
      { id := w.requests + 2, StatusCode := status3, Body := body3 }).1
        = decodeTasksResult lib body3 :=
    decodeTasksBody_open lib _ _ hopen
  have hretrace : (atRetry w).trace
      = (atStore w).trace
          ++ [Event.request (w.requests + 2) (tasksRequest result.AccessToken)] := by
    unfold atRetry; rw [hres, getTasks_trace, hreqs]
  have hev : eventsSince w (iteration lib w).world
      = [Event.request w.requests (tasksRequest (getTokens w).1),
          Event.write .stdout "token unauthorized.", Event.close w.requests,
          Event.request (w.requests + 1) (refreshRequest w (getTokens w).2),
          Event.read (w.requests + 1), Event.close (w.requests + 1),
          Event.setenv "MS_TO-DO_ACCESS_TOKEN" result.AccessToken,
          Event.setenv "MS_TO-DO_REFRESH_TOKEN" result.RefreshToken,
          Event.request (w.requests + 2) (tasksRequest result.AccessToken),
          Event.read (w.requests + 2)]
          ++ printed (decodeTasksResult lib body3) ++ [Event.sleep 10] := by
    apply eventsSince_append
    rw [hiter]
    simp [Outcome.world, hbody, hretrace, htrace]
  have hfinal : getTokens (iteration lib w).world = getTokens (atStore w) := by
    rw [hiter]
    simp [Outcome.world, getTokens, getenv, atRetry]
  refine ⟨hres, hiter, hev, ?_, ?_, htokens, hfinal, ?_⟩
  · rw [hev, requestsIn_append, requestsIn_append, requestsIn_printed]; rfl
  · rw [hev, readsIn_append, readsIn_append, readsIn_printed]; rfl
  · intro haccess hrefreshToken
    have hstore : getTokens (atStore w) = (result.AccessToken, result.RefreshToken) := by
      rw [htokens]; simp [haccess, hrefreshToken]
    exact ⟨hstore, by rw [hfinal, hstore]⟩

/-- Witness of C4: first fetch 401 with an empty body, refresh answered with
the pair ("A2", "R2"), retried fetch answered with an empty task list: the
store ends holding ("A2", "R2") and no task line is printed.  With a NUL in
the new refresh token the same effects happen in the same order, and the
store keeps the old refresh token. -/
theorem unauthorized_iteration_refreshes_and_retries_witness :
    (unauthorizedWorld.Valid
      ∧ unauthorizedWorld.net unauthorizedWorld.requests
          (tasksRequest (getTokens unauthorizedWorld).1) = .response 401 ""
      ∧ unauthorizedWorld.net (unauthorizedWorld.requests + 1)
          (refreshRequest unauthorizedWorld (getTokens unauthorizedWorld).2)
            = .response 200 refreshBody
      ∧ decodeRefreshResult refreshBody = .ok refreshBodyResult
      ∧ unauthorizedWorld.net (unauthorizedWorld.requests + 2)
          (tasksRequest refreshBodyResult.AccessToken) = .response 200 "\x7b\"value\":[]\x7d"
      ∧ nul ∉ refreshBodyResult.AccessToken.data
      ∧ nul ∉ refreshBodyResult.RefreshToken.data)
    ∧ (refreshResult unauthorizedWorld
          = { accessToken := "A2", refreshToken := "R2", err := none }
      ∧ iteration permissive unauthorizedWorld
          = .running (sleep (printTasks permissive (atRetry unauthorizedWorld)
              { id := 2, StatusCode := 200, Body := "\x7b\"value\":[]\x7d" }).2 10)
      ∧ eventsSince unauthorizedWorld (iteration permissive unauthorizedWorld).world
          = [Event.request 0 (tasksRequest "A1"),
              Event.write .stdout "token unauthorized.", Event.close 0,
              Event.request 1 (refreshRequest unauthorizedWorld "R1"),
              Event.read 1, Event.close 1,
              Event.setenv "MS_TO-DO_ACCESS_TOKEN" "A2",
              Event.setenv "MS_TO-DO_REFRESH_TOKEN" "R2",
              Event.request 2 (tasksRequest "A2"),
              Event.read 2]
              ++ printed (decodeTasksResult permissive "\x7b\"value\":[]\x7d")
              ++ [Event.sleep 10]
      ∧ requestsIn (eventsSince unauthorizedWorld
            (iteration permissive unauthorizedWorld).world)
          = [tasksRequest "A1", refreshRequest unauthorizedWorld "R1", tasksRequest "A2"]
      ∧ readsIn (eventsSince unauthorizedWorld
            (iteration permissive unauthorizedWorld).world) = [1, 2])
    ∧ (getTokens (atStore unauthorizedWorld) = ("A2", "R2")
      ∧ getTokens (iteration permissive unauthorizedWorld).world = ("A2", "R2"))
    ∧ linesWritten (eventsSince unauthorizedWorld
          (iteration permissive unauthorizedWorld).world)
        = ["token unauthorized.", "print tasks status, name..."]
    ∧ (eventsSince nulWorld (iteration permissive nulWorld).world
          = [Event.request 0 (tasksRequest "A1"),
              Event.write .stdout "token unauthorized.", Event.close 0,
              Event.request 1 (refreshRequest nulWorld "R1"),
              Event.read 1, Event.close 1,
              Event.setenv "MS_TO-DO_ACCESS_TOKEN" "A2",
              Event.setenv "MS_TO-DO_REFRESH_TOKEN" "R\x002",
              Event.request 2 (tasksRequest "A2"),
              Event.read 2]
              ++ printed (decodeTasksResult permissive "\x7b\"value\":[]\x7d")
              ++ [Event.sleep 10]
      ∧ getTokens (atStore nulWorld) = ("A2", "R1")) :=
  ⟨⟨by decide, by decide, by decide, by rfl, by decide, by decide, by decide⟩,
    ⟨(unauthorized_iteration_refreshes_and_retries permissive unauthorizedWorld ""
        200 refreshBody refreshBodyResult 200 "\x7b\"value\":[]\x7d"
        (by decide) (by decide) (by decide) (by rfl) (by decide)).1,
      (unauthorized_iteration_refreshes_and_retries permissive unauthorizedWorld ""
        200 refreshBody refreshBodyResult 200 "\x7b\"value\":[]\x7d"
        (by decide) (by decide) (by decide) (by rfl) (by decide)).2.1,
      (unauthorized_iteration_refreshes_and_retries permissive unauthorizedWorld ""
        200 refreshBody refreshBodyResult 200 "\x7b\"value\":[]\x7d"
        (by decide) (by decide) (by decide) (by rfl) (by decide)).2.2.1,
      (unauthorized_iteration_refreshes_and_retries permissive unauthorizedWorld ""
        200 refreshBody refreshBodyResult 200 "\x7b\"value\":[]\x7d"
        (by decide) (by decide) (by decide) (by rfl) (by decide)).2.2.2.1,
      (unauthorized_iteration_refreshes_and_retries permissive unauthorizedWorld ""
        200 refreshBody refreshBodyResult 200 "\x7b\"value\":[]\x7d"
        (by decide) (by decide) (by decide) (by rfl) (by decide)).2.2.2.2.1⟩,
    (unauthorized_iteration_refreshes_and_retries permissive unauthorizedWorld ""
      200 refreshBody refreshBodyResult 200 "\x7b\"value\":[]\x7d"
      (by decide) (by decide) (by decide) (by rfl) (by decide)).2.2.2.2.2.2.2
      (by decide) (by decide),
    by decide,
    ⟨(unauthorized_iteration_refreshes_and_retries permissive nulWorld ""
        200 nulRefreshBody nulRefreshBodyResult 200 "\x7b\"value\":[]\x7d"
        (by decide) (by decide) (by decide) (by rfl) (by decide)).2.2.1,
      by decide⟩⟩

/-- C4 as stated fails: the refresh succeeds with the pair ("A2", "R" NUL "2"),
the retried fetch is sent and printed, yet the token store keeps the old
refresh token "R1", during the retried fetch and at the end of the iteration. -/
theorem token_store_not_set_to_refreshed_pair :
    nulWorld.net nulWorld.requests (tasksRequest (getTokens nulWorld).1) = .response 401 ""
      ∧ refreshResult nulWorld
          = { accessToken := "A2", refreshToken := "R\x002", err := none }
      ∧ requestsIn (eventsSince nulWorld (iteration permissive nulWorld).world)
          = [tasksRequest "A1", refreshRequest nulWorld "R1", tasksRequest "A2"]
      ∧ (iteration permissive nulWorld).aborted = false
      ∧ getTokens (atStore nulWorld) = ("A2", "R1")
      ∧ getTokens (iteration permissive nulWorld).world = ("A2", "R1")
      ∧ getTokens (atStore nulWorld)
          ≠ ((refreshResult nulWorld).accessToken, (refreshResult nulWorld).refreshToken) := by
  decide

/-! ## Aborting -/

theorem foldl_closeBody (ids : List Nat) (w : World) :
    ids.foldl closeBody w
      = { w with
          closed := ids.reverse ++ w.closed
          trace := w.trace ++ ids.map Event.close } := by
  induction ids generalizing w with
  | nil => simp
  | cons id ids ih =>
    rw [List.foldl_cons, ih]
    simp [closeBody, World.emit]

section panicFrame

variable (w : World) (err : Error)

@[simp] theorem panic_trace :
    (panic w err).trace = w.trace ++ w.deferred.map Event.close ++ [Event.panic err] := by
  simp [panic, foldl_closeBody, World.emit]
@[simp] theorem panic_env : (panic w err).env = w.env := by
  simp [panic, foldl_closeBody, World.emit]
@[simp] theorem panic_net : (panic w err).net = w.net := by
  simp [panic, foldl_closeBody, World.emit]
@[simp] theorem panic_requests : (panic w err).requests = w.requests := by
  simp [panic, foldl_closeBody, World.emit]
@[simp] theorem panic_opened : (panic w err).opened = w.opened := by
  simp [panic, foldl_closeBody, World.emit]
@[simp] theorem panic_closed : (panic w err).closed = w.deferred.reverse ++ w.closed := by
  simp [panic, foldl_closeBody, World.emit]

end panicFrame

theorem linesWritten_closes (ids : List Nat) : linesWritten (ids.map Event.close) = [] := by
  induction ids with
  | nil => rfl
  | cons id ids ih => simp [linesWritten]

theorem requestsIn_closes (ids : List Nat) : requestsIn (ids.map Event.close) = [] := by
  induction ids with
  | nil => rfl
  | cons id ids ih => simp [requestsIn]

theorem setenvsIn_closes (ids : List Nat) : setenvsIn (ids.map Event.close) = [] := by
  induction ids with
  | nil => rfl
  | cons id ids ih => simp [setenvsIn]

theorem readsIn_closes (ids : List Nat) : readsIn (ids.map Event.close) = [] := by
  induction ids with
  | nil => rfl
  | cons id ids ih => simp [readsIn]

/-- Once an iteration has panicked, the loop runs no further iteration. -/
theorem mainLoop_panicked (lib : Lib) (w w1 : World)
    (h : iteration lib w = .panicked w1) (k : Nat) :
    mainLoop lib (k + 1) w = .panicked w1 := by
  simp [mainLoop, h]

/-- The state `refreshTokens` leaves, whatever the token endpoint answers:
one request, then at most the read and the close of the response body. -/
theorem refreshTokens_world (w : World) (old : String) :
    ∃ tail : List Event,
      (tail = [] ∨ tail = [Event.read w.requests, Event.close w.requests])
        ∧ (tail = [] → (refreshTokens w old).1.err ≠ none)
        ∧ (refreshTokens w old).2.trace
            = w.trace ++ Event.request w.requests (refreshRequest w old) :: tail
        ∧ (refreshTokens w old).2.env = w.env
        ∧ (refreshTokens w old).2.net = w.net
        ∧ (refreshTokens w old).2.requests = w.requests + 1
        ∧ (refreshTokens w old).2.deferred = w.deferred := by
  have hreq : (Request.mk "POST" refreshTokenURL [] (refreshForm w old)).setHeader
      "Content-Type" "application/x-www-form-urlencoded" = refreshRequest w old := by
    simp [Request.setHeader, refreshRequest]
  rcases hn : w.net w.requests (refreshRequest w old) with ⟨status, body⟩ | msg
  · refine ⟨[Event.read w.requests, Event.close w.requests], Or.inr rfl, by simp, ?_⟩
    simp only [refreshTokens, newRequest, hreq, clientDo, hn]
    by_cases hopen : w.requests ∈ w.closed
    · simp [decodeRefreshBody, readBody, World.emit, hopen, closeBody]
    · simp only [decodeRefreshBody, readBody, World.emit, hopen, if_false]
      cases decodeRefreshResult body <;> simp [closeBody, World.emit]
  · refine ⟨[], Or.inl rfl, ?_, ?_⟩
    · intro _; rw [refreshTokens_failure w old msg hn]; simp
    · rw [refreshTokens_failure w old msg hn]; simp

/-- The iteration when the first fetch returns an error. -/
theorem iteration_fetch_error (lib : Lib) (w : World) (err : Error)
    (h : (getTasks w (getTokens w).1).1 = .error err) :
    iteration lib w = .panicked (panic (getTasks w (getTokens w).1).2 err) := by
  unfold iteration
  rcases hg : getTasks w (getTokens w).1 with ⟨r, w1⟩
  rw [hg] at h
  simp only at h
  subst h
  rfl

/-- C6: an error returned by `getTasks`, on the first or on the retried
fetch, or by `refreshTokens` makes the iteration panic.  No later iteration
runs and `printTasks` prints nothing: the only line the iteration may have
written is the notice "token unauthorized.".  When it is `refreshTokens` that
fails, `setTokens` is not called, the token store holds what it held at the
start, and no second fetch is sent. -/
theorem fetch_or_refresh_error_aborts (lib : Lib) (w : World) :
    (∀ err : Error, (getTasks w (getTokens w).1).1 = .error err →
        iteration lib w = .panicked (panic (getTasks w (getTokens w).1).2 err)
        ∧ (∀ k : Nat, mainLoop lib (k + 1) w
            = .panicked (panic (getTasks w (getTokens w).1).2 err))
        ∧ linesWritten (eventsSince w (iteration lib w).world) = []
        ∧ readsIn (eventsSince w (iteration lib w).world) = []
        ∧ requestsIn (eventsSince w (iteration lib w).world)
            = [tasksRequest (getTokens w).1]
        ∧ setenvsIn (eventsSince w (iteration lib w).world) = []
        ∧ getTokens (iteration lib w).world = getTokens w)
    ∧ (∀ (body : String) (err : Error),
        w.net w.requests (tasksRequest (getTokens w).1) = .response 401 body →
        (refreshResult w).err = some err →
        iteration lib w
            = .panicked (panic (refreshTokens (atRefresh w) (getTokens w).2).2 err)
        ∧ (∀ k : Nat, mainLoop lib (k + 1) w
            = .panicked (panic (refreshTokens (atRefresh w) (getTokens w).2).2 err))
        ∧ linesWritten (eventsSince w (iteration lib w).world) = ["token unauthorized."]
        ∧ requestsIn (eventsSince w (iteration lib w).world)
            = [tasksRequest (getTokens w).1, refreshRequest w (getTokens w).2]
        ∧ setenvsIn (eventsSince w (iteration lib w).world) = []
        ∧ (iteration lib w).world.env = w.env
        ∧ getTokens (iteration lib w).world = getTokens w)
    ∧ (∀ (body : String) (err : Error),
        w.net w.requests (tasksRequest (getTokens w).1) = .response 401 body →
        (refreshResult w).err = none →
        (getTasks (atStore w) (refreshResult w).accessToken).1 = .error err →
        iteration lib w = .panicked (panic (atRetry w) err)
        ∧ (∀ k : Nat, mainLoop lib (k + 1) w = .panicked (panic (atRetry w) err))
        ∧ linesWritten (eventsSince w (iteration lib w).world) = ["token unauthorized."]
        ∧ requestsIn (eventsSince w (iteration lib w).world)
            = [tasksRequest (getTokens w).1, refreshRequest w (getTokens w).2,
                tasksRequest (refreshResult w).accessToken]) := by
  refine ⟨?_, ?_, ?_⟩
  · intro err h
    have hiter := iteration_fetch_error lib w err h
    have hev : eventsSince w (iteration lib w).world
        = [Event.request w.requests (tasksRequest (getTokens w).1)]
            ++ w.deferred.map Event.close ++ [Event.panic err] := by
      apply eventsSince_append
      rw [hiter]
      simp [Outcome.world]
    refine ⟨hiter, mainLoop_panicked lib w _ hiter, ?_, ?_, ?_, ?_, ?_⟩
    · rw [hev, linesWritten_append, linesWritten_append, linesWritten_closes]; rfl
    · rw [hev, readsIn_append, readsIn_append, readsIn_closes]; rfl
    · rw [hev, requestsIn_append, requestsIn_append, requestsIn_closes]; rfl
    · rw [hev, setenvsIn_append, setenvsIn_append, setenvsIn_closes]; rfl
    · rw [hiter]; simp [Outcome.world, getTokens, getenv]
  · intro body err hfetch herr
    have hiter : iteration lib w
        = .panicked (panic (refreshTokens (atRefresh w) (getTokens w).2).2 err) := by
      rw [iteration_unauthorized lib w body hfetch, herr]
    obtain ⟨tail, htail, -, htrace, henv, -, -, hdeferred⟩ :=
      refreshTokens_world (atRefresh w) (getTokens w).2
    have hreq : refreshRequest (atRefresh w) (getTokens w).2
        = refreshRequest w (getTokens w).2 := refreshRequest_env w _ _ (atRefresh_env w)
    rw [hreq] at htrace
    have hev : eventsSince w (iteration lib w).world
        = [Event.request w.requests (tasksRequest (getTokens w).1),
            Event.write .stdout "token unauthorized.", Event.close w.requests,
            Event.request (w.requests + 1) (refreshRequest w (getTokens w).2)]
            ++ tail ++ (w.requests :: w.deferred).map Event.close ++ [Event.panic err] := by
      apply eventsSince_append
      rw [hiter]
      simp [Outcome.world, htrace, hdeferred]
    have hlines : linesWritten tail = [] := by
      rcases htail with h | h <;> rw [h] <;> rfl
    have hrequests : requestsIn tail = [] := by
      rcases htail with h | h <;> rw [h] <;> rfl
    have hsetenvs : setenvsIn tail = [] := by
      rcases htail with h | h <;> rw [h] <;> rfl
    refine ⟨hiter, mainLoop_panicked lib w _ hiter, ?_, ?_, ?_, ?_, ?_⟩
    · rw [hev, linesWritten_append, linesWritten_append, linesWritten_append,
        linesWritten_closes, hlines]; rfl
    · rw [hev, requestsIn_append, requestsIn_append, requestsIn_append,
        requestsIn_closes, hrequests]; rfl
    · rw [hev, setenvsIn_append, setenvsIn_append, setenvsIn_append,
        setenvsIn_closes, hsetenvs]; rfl
    · rw [hiter]; simp [Outcome.world, henv]
    · have hfinal : (iteration lib w).world.env = w.env := by
        rw [hiter]; simp [Outcome.world, henv]
      simp only [getTokens, getenv, hfinal]
  · intro body err hfetch hnone hretry
    have hiter : iteration lib w = .panicked (panic (atRetry w) err) := by
      rw [iteration_unauthorized lib w body hfetch, hnone]
      simp only
      unfold atRetry
      rcases hg : getTasks (atStore w) (refreshResult w).accessToken with ⟨r5, w5⟩
      rw [hg] at hretry
      simp only at hretry
      subst hretry
      rfl
    obtain ⟨tail, htail, hfail, htrace, -, -, hrequests, hdeferred⟩ :=
      refreshTokens_world (atRefresh w) (getTokens w).2
    have hreq : refreshRequest (atRefresh w) (getTokens w).2
        = refreshRequest w (getTokens w).2 := refreshRequest_env w _ _ (atRefresh_env w)
    rw [hreq] at htrace
    have htail2 : tail = [Event.read (w.requests + 1), Event.close (w.requests + 1)] := by
      rcases htail with h | h
      · exact absurd hnone (hfail h)
      · simpa using h
    have hev : eventsSince w (iteration lib w).world
        = [Event.request w.requests (tasksRequest (getTokens w).1),
            Event.write .stdout "token unauthorized.", Event.close w.requests,
            Event.request (w.requests + 1) (refreshRequest w (getTokens w).2),
            Event.read (w.requests + 1), Event.close (w.requests + 1),
            Event.setenv "MS_TO-DO_ACCESS_TOKEN" (refreshResult w).accessToken,
            Event.setenv "MS_TO-DO_REFRESH_TOKEN" (refreshResult w).refreshToken,
            Event.request (w.requests + 2) (tasksRequest (refreshResult w).accessToken)]
            ++ (w.requests :: w.deferred).map Event.close ++ [Event.panic err] := by
      apply eventsSince_append
      rw [hiter]
      simp [Outcome.world, atRetry, atStore, htrace, htail2, hdeferred, hrequests]
    refine ⟨hiter, mainLoop_panicked lib w _ hiter, ?_, ?_⟩
    · rw [hev, linesWritten_append, linesWritten_append, linesWritten_closes]; rfl
    · rw [hev, requestsIn_append, requestsIn_append, requestsIn_closes]; rfl

/-- Witness of C6: a refused first fetch, a refresh answered with a body that
is not JSON, and a refused retried fetch. -/
theorem fetch_or_refresh_error_aborts_witness :
    ((getTasks refusedWorld (getTokens refusedWorld).1).1
          = .error (.transport "connection refused")
      ∧ (iteration permissive refusedWorld
            = .panicked (panic (getTasks refusedWorld (getTokens refusedWorld).1).2
                (.transport "connection refused"))
        ∧ (∀ k : Nat, mainLoop permissive (k + 1) refusedWorld
            = .panicked (panic (getTasks refusedWorld (getTokens refusedWorld).1).2
                (.transport "connection refused")))
        ∧ linesWritten (eventsSince refusedWorld
            (iteration permissive refusedWorld).world) = []
        ∧ readsIn (eventsSince refusedWorld
            (iteration permissive refusedWorld).world) = []
        ∧ requestsIn (eventsSince refusedWorld
            (iteration permissive refusedWorld).world)
            = [tasksRequest (getTokens refusedWorld).1]
        ∧ setenvsIn (eventsSince refusedWorld
            (iteration permissive refusedWorld).world) = []
        ∧ getTokens (iteration permissive refusedWorld).world
            = getTokens refusedWorld))
    ∧ ((failedRefreshWorld.net failedRefreshWorld.requests
            (tasksRequest (getTokens failedRefreshWorld).1) = .response 401 ""
        ∧ (refreshResult failedRefreshWorld).err = some .malformed)
      ∧ (iteration permissive failedRefreshWorld
            = .panicked (panic (refreshTokens (atRefresh failedRefreshWorld)
                (getTokens failedRefreshWorld).2).2 .malformed)
        ∧ (∀ k : Nat, mainLoop permissive (k + 1) failedRefreshWorld
            = .panicked (panic (refreshTokens (atRefresh failedRefreshWorld)
                (getTokens failedRefreshWorld).2).2 .malformed))
        ∧ linesWritten (eventsSince failedRefreshWorld
            (iteration permissive failedRefreshWorld).world) = ["token unauthorized."]
        ∧ requestsIn (eventsSince failedRefreshWorld
            (iteration permissive failedRefreshWorld).world)
            = [tasksRequest (getTokens failedRefreshWorld).1,
                refreshRequest failedRefreshWorld (getTokens failedRefreshWorld).2]
        ∧ setenvsIn (eventsSince failedRefreshWorld
            (iteration permissive failedRefreshWorld).world) = []
        ∧ (iteration permissive failedRefreshWorld).world.env = failedRefreshWorld.env
        ∧ getTokens (iteration permissive failedRefreshWorld).world
            = getTokens failedRefreshWorld))
    ∧ ((failedRetryWorld.net failedRetryWorld.requests
            (tasksRequest (getTokens failedRetryWorld).1) = .response 401 ""
        ∧ (refreshResult failedRetryWorld).err = none
        ∧ (getTasks (atStore failedRetryWorld) (refreshResult failedRetryWorld).accessToken).1
            = .error (.transport "connection refused"))
      ∧ (iteration permissive failedRetryWorld
            = .panicked (panic (atRetry failedRetryWorld) (.transport "connection refused"))
        ∧ (∀ k : Nat, mainLoop permissive (k + 1) failedRetryWorld
            = .panicked (panic (atRetry failedRetryWorld) (.transport "connection refused")))
        ∧ linesWritten (eventsSince failedRetryWorld
            (iteration permissive failedRetryWorld).world) = ["token unauthorized."]
        ∧ requestsIn (eventsSince failedRetryWorld
            (iteration permissive failedRetryWorld).world)
            = [tasksRequest (getTokens failedRetryWorld).1,
                refreshRequest failedRetryWorld (getTokens failedRetryWorld).2,
                tasksRequest (refreshResult failedRetryWorld).accessToken])) :=
  ⟨⟨by rfl, (fetch_or_refresh_error_aborts permissive refusedWorld).1
      (.transport "connection refused") (by rfl)⟩,
   ⟨⟨by decide, by decide⟩,
    (fetch_or_refresh_error_aborts permissive failedRefreshWorld).2.1 ""
      .malformed (by decide) (by decide)⟩,
   ⟨⟨by decide, by decide, by rfl⟩,
    (fetch_or_refresh_error_aborts permissive failedRetryWorld).2.2 ""
      (.transport "connection refused") (by decide) (by decide) (by rfl)⟩⟩

/-! ## What the refresher returns -/

/-- C3, amended: when the body of the refresh response decodes as a
`RefreshResult`, `refreshTokens` returns no error and the decoded
`access_token` and `refresh_token`.  For a body that is a JSON object each
token is what the members stored into its own field leave there, so two such
bodies whose `access_token` and `refresh_token` members agree give the same
pair, whatever `expires_in`, `ext_expires_in`, `scope` and `token_type` hold. -/
theorem refreshTokens_returns_decoded_tokens (w : World) (old : String) (status : Nat)
    (body : String) (result : RefreshResult) (hv : w.Valid)
    (hreply : w.net w.requests (refreshRequest w old) = .response status body)
    (hdec : decodeRefreshResult body = .ok result) :
    (refreshTokens w old).1
        = { accessToken := result.AccessToken, refreshToken := result.RefreshToken,
            err := none }
      ∧ (∀ kvs : List (String × JSON), scanBody body = .ok (.obj kvs) →
          result.AccessToken
              = stringOf "access_token" (membersOf refreshFields "access_token" kvs) ""
            ∧ result.RefreshToken
              = stringOf "refresh_token" (membersOf refreshFields "refresh_token" kvs) "")
      ∧ (∀ (w2 : World) (old2 : String) (status2 : Nat) (body2 : String)
          (result2 : RefreshResult) (kvs kvs2 : List (String × JSON)),
          w2.Valid →
          w2.net w2.requests (refreshRequest w2 old2) = .response status2 body2 →
          decodeRefreshResult body2 = .ok result2 →
          scanBody body = .ok (.obj kvs) →
          scanBody body2 = .ok (.obj kvs2) →
          membersOf refreshFields "access_token" kvs2
            = membersOf refreshFields "access_token" kvs →
          membersOf refreshFields "refresh_token" kvs2
            = membersOf refreshFields "refresh_token" kvs →
          (refreshTokens w2 old2).1 = (refreshTokens w old).1) := by
  have hopen : w.requests ∉ w.closed := fun hc => Nat.lt_irrefl _ (hv.1 _ hc)
  have hr := refreshTokens_response w old status body hreply hopen
  rw [hdec] at hr
  have h1 : (refreshTokens w old).1
      = { accessToken := result.AccessToken, refreshToken := result.RefreshToken,
          err := none } := by rw [hr]
  refine ⟨h1, fun kvs hscan => decodeRefreshResult_tokens body kvs result hscan hdec, ?_⟩
  intro w2 old2 status2 body2 result2 kvs kvs2 hv2 hreply2 hdec2 hscan hscan2 ha hrt
  have hopen2 : w2.requests ∉ w2.closed := fun hc => Nat.lt_irrefl _ (hv2.1 _ hc)
  have hr2 := refreshTokens_response w2 old2 status2 body2 hreply2 hopen2
  rw [hdec2] at hr2
  obtain ⟨ta, tr⟩ := decodeRefreshResult_tokens body kvs result hscan hdec
  obtain ⟨ta2, tr2⟩ := decodeRefreshResult_tokens body2 kvs2 result2 hscan2 hdec2
  have h2 : (refreshTokens w2 old2).1
      = { accessToken := result2.AccessToken, refreshToken := result2.RefreshToken,
          err := none } := by rw [hr2]
  rw [h1, h2, ta, tr, ta2, tr2, ha, hrt]

/-- Witness of C3: the body with the pair ("A2", "R2") alone, and next to it
a body that also carries the four other fields. -/
theorem refreshTokens_returns_decoded_tokens_witness :
    ((refreshing 200 refreshBody).Valid
      ∧ (refreshing 200 refreshBody).net (refreshing 200 refreshBody).requests
          (refreshRequest (refreshing 200 refreshBody) "R1") = .response 200 refreshBody
      ∧ decodeRefreshResult refreshBody = .ok refreshBodyResult)
    ∧ (refreshTokens (refreshing 200 refreshBody) "R1").1
        = { accessToken := "A2", refreshToken := "R2", err := none }
    ∧ ((refreshing 200 fullRefreshBody).Valid
      ∧ (refreshing 200 fullRefreshBody).net (refreshing 200 fullRefreshBody).requests
          (refreshRequest (refreshing 200 fullRefreshBody) "R1") = .response 200 fullRefreshBody
      ∧ decodeRefreshResult fullRefreshBody = .ok fullRefreshBodyResult
      ∧ scanBody refreshBody = .ok (.obj refreshBodyMembers)
      ∧ scanBody fullRefreshBody = .ok (.obj fullRefreshBodyMembers)
      ∧ membersOf refreshFields "access_token" fullRefreshBodyMembers
          = membersOf refreshFields "access_token" refreshBodyMembers
      ∧ membersOf refreshFields "refresh_token" fullRefreshBodyMembers
          = membersOf refreshFields "refresh_token" refreshBodyMembers)
    ∧ (refreshTokens (refreshing 200 fullRefreshBody) "R1").1
        = (refreshTokens (refreshing 200 refreshBody) "R1").1 :=
  ⟨⟨by decide, by decide, by rfl⟩,
    (refreshTokens_returns_decoded_tokens (refreshing 200 refreshBody) "R1" 200 refreshBody
      refreshBodyResult (by decide) (by decide) (by rfl)).1,
    ⟨by decide, by decide, by rfl, by rfl, by rfl, by rfl, by rfl⟩,
    (refreshTokens_returns_decoded_tokens (refreshing 200 refreshBody) "R1" 200 refreshBody
      refreshBodyResult (by decide) (by decide) (by rfl)).2.2
      (refreshing 200 fullRefreshBody) "R1" 200 fullRefreshBody fullRefreshBodyResult
      refreshBodyMembers fullRefreshBodyMembers
      (by decide) (by decide) (by rfl) (by rfl) (by rfl) (by rfl) (by rfl)⟩

/-- C3 as stated fails: a body that is valid JSON with `expires_in` sent as a
string makes `refreshTokens` return an error and two empty tokens, while the
same body with `expires_in` sent as a number gives ("A2", "R2"). -/
theorem refreshTokens_valid_json_error :
    validJSON stringExpiryBody = true
      ∧ validJSON numberExpiryBody = true
      ∧ (refreshTokens (refreshing 200 stringExpiryBody) "R1").1
          = { accessToken := "", refreshToken := "",
              err := some (.typeMismatch "expires_in") }
      ∧ (refreshTokens (refreshing 200 numberExpiryBody) "R1").1
          = { accessToken := "A2", refreshToken := "R2", err := none } := by
  decide

/-- C10, amended: `refreshTokens` does not look at the status of the refresh
response.  Whatever the status, when the body decodes as a `RefreshResult`
`refreshTokens` returns no error, and for a body that is a JSON object it
returns the empty string for each of `access_token` and `refresh_token` that
no member is stored into.  The loop then calls `setTokens` with that pair,
which replaces each stored token whose new value holds no NUL character (an
empty token always replaces the stored one), and sends the retried fetch with
the returned access token. -/
theorem refresh_ignores_status (lib : Lib) (w : World) (body1 : String)
    (status2 : Nat) (body2 : String) (result : RefreshResult) (hv : w.Valid)
    (hfetch : w.net w.requests (tasksRequest (getTokens w).1) = .response 401 body1)
    (hrefresh : w.net (w.requests + 1) (refreshRequest w (getTokens w).2)
      = .response status2 body2)
    (hdec : decodeRefreshResult body2 = .ok result) :
    refreshResult w
        = { accessToken := result.AccessToken, refreshToken := result.RefreshToken,
            err := none }
      ∧ (∀ kvs : List (String × JSON), scanBody body2 = .ok (.obj kvs) →
          (membersOf refreshFields "access_token" kvs = [] → result.AccessToken = "")
            ∧ (membersOf refreshFields "refresh_token" kvs = [] → result.RefreshToken = ""))
      ∧ setenvsIn (eventsSince w (atStore w))
          = [("MS_TO-DO_ACCESS_TOKEN", result.AccessToken),
              ("MS_TO-DO_REFRESH_TOKEN", result.RefreshToken)]
      ∧ getTokens (atStore w)
          = (if nul ∈ result.AccessToken.data then (getTokens w).1 else result.AccessToken,
             if nul ∈ result.RefreshToken.data then (getTokens w).2 else result.RefreshToken)
      ∧ (result.AccessToken = "" → (getTokens (atStore w)).1 = "")
      ∧ (result.RefreshToken = "" → (getTokens (atStore w)).2 = "")
      ∧ requestsIn (eventsSince w (atRetry w))
          = [tasksRequest (getTokens w).1, refreshRequest w (getTokens w).2,
              tasksRequest result.AccessToken]
      ∧ iteration lib w
          = (match getTasks (atStore w) result.AccessToken with
            | (.error err, w5) => Outcome.panicked (panic w5 err)
            | (.ok resp2, w5) => Outcome.running (sleep (printTasks lib w5 resp2).2 10)) := by
  obtain ⟨hres, htrace, -, hreqs, -, -, htokens⟩ :=
    atStore_refreshed w status2 body2 result hv hrefresh hdec
  have hiter : iteration lib w
      = (match getTasks (atStore w) result.AccessToken with
        | (.error err, w5) => Outcome.panicked (panic w5 err)
        | (.ok resp2, w5) => Outcome.running (sleep (printTasks lib w5 resp2).2 10)) := by
    rw [iteration_unauthorized lib w body1 hfetch, hres]
  have hev : eventsSince w (atStore w)
      = [Event.request w.requests (tasksRequest (getTokens w).1),
          Event.write .stdout "token unauthorized.", Event.close w.requests,
          Event.request (w.requests + 1) (refreshRequest w (getTokens w).2),
          Event.read (w.requests + 1), Event.close (w.requests + 1),
          Event.setenv "MS_TO-DO_ACCESS_TOKEN" result.AccessToken,
          Event.setenv "MS_TO-DO_REFRESH_TOKEN" result.RefreshToken] :=
    eventsSince_append w _ _ htrace
  have hev2 : eventsSince w (atRetry w)
      = [Event.request w.requests (tasksRequest (getTokens w).1),
          Event.write .stdout "token unauthorized.", Event.close w.requests,
          Event.request (w.requests + 1) (refreshRequest w (getTokens w).2),
          Event.read (w.requests + 1), Event.close (w.requests + 1),
          Event.setenv "MS_TO-DO_ACCESS_TOKEN" result.AccessToken,
          Event.setenv "MS_TO-DO_REFRESH_TOKEN" result.RefreshToken,
          Event.request (w.requests + 2) (tasksRequest result.AccessToken)] := by
    apply eventsSince_append
    unfold atRetry
    rw [hres, getTasks_trace, hreqs, htrace]
    simp
  refine ⟨hres, ?_, ?_, htokens, ?_, ?_, ?_, hiter⟩
  · intro kvs hscan
    obtain ⟨ha, hr⟩ := decodeRefreshResult_tokens body2 kvs result hscan hdec
    exact ⟨fun h => by rw [ha, h, stringOf_nil], fun h => by rw [hr, h, stringOf_nil]⟩
  · rw [hev]; rfl
  · intro h
    rw [htokens, h]
    have : nul ∉ "".data := by decide
    simp [this]
  · intro h
    rw [htokens, h]
    have : nul ∉ "".data := by decide
    simp [this]
  · rw [hev2]; rfl

/-- Witness of C10: a refresh answered with status 400 and the body
`invalidGrantBody`: no error, two empty tokens, the store overwritten with
them, and the retried fetch sent with the empty access token. -/
theorem refresh_ignores_status_witness :
    (invalidGrantWorld.Valid
      ∧ invalidGrantWorld.net invalidGrantWorld.requests
          (tasksRequest (getTokens invalidGrantWorld).1) = .response 401 ""
      ∧ invalidGrantWorld.net (invalidGrantWorld.requests + 1)
          (refreshRequest invalidGrantWorld (getTokens invalidGrantWorld).2)
            = .response 400 invalidGrantBody
      ∧ decodeRefreshResult invalidGrantBody = .ok {}
      ∧ scanBody invalidGrantBody = .ok (.obj invalidGrantMembers))
    ∧ (refreshResult invalidGrantWorld = { accessToken := "", refreshToken := "", err := none }
      ∧ (∀ kvs : List (String × JSON), scanBody invalidGrantBody = .ok (.obj kvs) →
          (membersOf refreshFields "access_token" kvs = [] → "" = "")
            ∧ (membersOf refreshFields "refresh_token" kvs = [] → "" = ""))
      ∧ setenvsIn (eventsSince invalidGrantWorld (atStore invalidGrantWorld))
          = [("MS_TO-DO_ACCESS_TOKEN", ""), ("MS_TO-DO_REFRESH_TOKEN", "")]
      ∧ getTokens (atStore invalidGrantWorld) = ("", "")
      ∧ ("" = "" → (getTokens (atStore invalidGrantWorld)).1 = "")
      ∧ ("" = "" → (getTokens (atStore invalidGrantWorld)).2 = "")
      ∧ requestsIn (eventsSince invalidGrantWorld (atRetry invalidGrantWorld))
          = [tasksRequest "A1", refreshRequest invalidGrantWorld "R1", tasksRequest ""]
      ∧ iteration permissive invalidGrantWorld
          = (match getTasks (atStore invalidGrantWorld) "" with
            | (.error err, w5) => Outcome.panicked (panic w5 err)
            | (.ok resp2, w5) =>
              Outcome.running (sleep (printTasks permissive w5 resp2).2 10)))
    ∧ getTokens invalidGrantWorld = ("A1", "R1")
    ∧ getTokens (iteration permissive invalidGrantWorld).world = ("", "") :=
  ⟨⟨by decide, by decide, by decide, by rfl, by rfl⟩,
    refresh_ignores_status permissive invalidGrantWorld "" 400 invalidGrantBody {}
      (by decide) (by decide) (by decide) (by rfl),
    by decide, by decide⟩

/-- C10 as stated fails: the body `illTypedErrorBody` is a JSON object with
neither token, yet `refreshTokens` returns an error; the iteration panics, the
store keeps the old pair and no retried fetch is sent. -/
theorem refresh_error_body_rejected :
    (scanBody illTypedErrorBody = .ok (.obj illTypedErrorMembers)
      ∧ membersOf refreshFields "access_token" illTypedErrorMembers = []
      ∧ membersOf refreshFields "refresh_token" illTypedErrorMembers = [])
    ∧ (refreshResult illTypedErrorWorld
          = { accessToken := "", refreshToken := "",
              err := some (.typeMismatch "expires_in") }
      ∧ (iteration permissive illTypedErrorWorld).aborted = true
      ∧ setenvsIn (eventsSince illTypedErrorWorld
            (iteration permissive illTypedErrorWorld).world) = []
      ∧ getTokens (iteration permissive illTypedErrorWorld).world = ("A1", "R1")
      ∧ requestsIn (eventsSince illTypedErrorWorld
            (iteration permissive illTypedErrorWorld).world)
          = [tasksRequest "A1", refreshRequest illTypedErrorWorld "R1"]) :=
  ⟨⟨by rfl, by rfl, by rfl⟩, by decide⟩

/-! ## The error of the printer, and the response bodies -/

/-- C5, at a first fetch answered with status 200 and a body that is not
JSON: `printTasks` returns an error, yet the iteration does not abort.  It
sleeps, and the next iteration sends the next fetch. -/
theorem printTasks_error_is_dropped :
    (printTasks permissive (deferClose (getTasks garbledWorld "A1").2 0)
        { id := 0, StatusCode := 200, Body := "not json" }).1 = some .malformed
      ∧ (iteration permissive garbledWorld).aborted = false
      ∧ eventsSince garbledWorld (iteration permissive garbledWorld).world
          = [Event.request 0 (tasksRequest "A1"), Event.read 0, Event.sleep 10]
      ∧ (mainLoop permissive 2 garbledWorld).aborted = false
      ∧ requestsIn (mainLoop permissive 2 garbledWorld).world.trace
          = [tasksRequest "A1", tasksRequest "A1"]
      ∧ linesWritten (mainLoop permissive 2 garbledWorld).world.trace
          = ["print tasks status, name...", "completed : Buy milk"] := by
  decide

/-- Whatever `printTasks` returns, an iteration that reaches it ends in the
sleep and leaves the loop running. -/
theorem iteration_running_after_print (lib : Lib) (w : World) (status : Nat)
    (body : String)
    (hfetch : w.net w.requests (tasksRequest (getTokens w).1) = .response status body)
    (hstatus : status ≠ 401) :
    (iteration lib w).aborted = false := by
  rw [iteration_authorized lib w status body hfetch hstatus]; rfl

/-- An authorized iteration leaves the body of its response open: nothing is
closed, and the deferred call is kept for the return of `main`. -/
theorem authorized_iteration_leaves_body_open (lib : Lib) (w : World)
    (status : Nat) (body : String) (hv : w.Valid)
    (hfetch : w.net w.requests (tasksRequest (getTokens w).1) = .response status body)
    (hstatus : status ≠ 401) :
    (iteration lib w).aborted = false
      ∧ (iteration lib w).world.net = w.net
      ∧ (iteration lib w).world.env = w.env
      ∧ (iteration lib w).world.Valid
      ∧ (iteration lib w).world.closed = w.closed
      ∧ (iteration lib w).world.deferred = w.requests :: w.deferred
      ∧ (iteration lib w).world.openBodies = w.requests :: w.openBodies := by
  have hopen : w.requests ∉ w.closed := fun hc => Nat.lt_irrefl _ (hv.1 _ hc)
  have hiter := iteration_authorized lib w status body hfetch hstatus
  have hopened := getTasks_opened w _ status body hfetch
  have hclosed : (iteration lib w).world.closed = w.closed := by
    rw [hiter]; simp [Outcome.world]
  have hop : (iteration lib w).world.opened = w.requests :: w.opened := by
    rw [hiter]; simp [Outcome.world, hopened]
  have hreq : (iteration lib w).world.requests = w.requests + 1 := by
    rw [hiter]; simp [Outcome.world]
  have hdef : (iteration lib w).world.deferred = w.requests :: w.deferred := by
    rw [hiter]; simp [Outcome.world]
  refine ⟨by rw [hiter]; rfl, by rw [hiter]; simp [Outcome.world],
    by rw [hiter]; simp [Outcome.world], ?_, hclosed, hdef, ?_⟩
  · refine ⟨?_, ?_, ?_⟩
    · intro id hid
      rw [hclosed] at hid; rw [hreq]
      exact Nat.lt_succ_of_lt (hv.1 id hid)
    · intro id hid
      rw [hop] at hid; rw [hreq]
      rcases List.mem_cons.mp hid with h | h
      · omega
      · exact Nat.lt_succ_of_lt (hv.2.1 id h)
    · intro id hid
      rw [hdef] at hid; rw [hreq]
      rcases List.mem_cons.mp hid with h | h
      · omega
      · exact Nat.lt_succ_of_lt (hv.2.2 id h)
  · simp [World.openBodies, hop, hclosed, List.filter, hopen]

/-- On a network that answers every request with the same authorized
response, each iteration adds one open body and closes none. -/
theorem mainLoop_open_bodies (lib : Lib) (status : Nat) (body : String)
    (hstatus : status ≠ 401) (n : Nat) (w : World) (hv : w.Valid)
    (hnet : w.net = always status body) :
    (mainLoop lib n w).aborted = false
      ∧ (mainLoop lib n w).world.closed = w.closed
      ∧ (mainLoop lib n w).world.openBodies.length = w.openBodies.length + n := by
  induction n generalizing w with
  | zero => exact ⟨rfl, rfl, rfl⟩
  | succ n ih =>
    have hfetch : w.net w.requests (tasksRequest (getTokens w).1) = .response status body := by
      rw [hnet]; rfl
    obtain ⟨hab, hnet1, -, hv1, hclosed1, -, hopen1⟩ :=
      authorized_iteration_leaves_body_open lib w status body hv hfetch hstatus
    rcases hit : iteration lib w with w1 | w1
    · rw [hit] at hnet1 hv1 hclosed1 hopen1
      simp only [Outcome.world] at hnet1 hv1 hclosed1 hopen1
      obtain ⟨h1, h2, h3⟩ := ih w1 hv1 (by rw [hnet1, hnet])
      simp only [mainLoop, hit]
      refine ⟨h1, by rw [h2, hclosed1], ?_⟩
      rw [h3, hopen1, List.length_cons]; omega
    · rw [hit] at hab; simp [Outcome.aborted] at hab

/-- C9 fails on the code.  On a network that always answers 200, after n
iterations n response bodies are open and none was closed; and in the
unauthorized iteration of `unauthorizedWorld` the body of the 401 response
and that of the refresh response are closed, while the retried response, the
one that is printed, is left open and no `Close` is deferred for it. -/
theorem response_bodies_left_open :
    (∀ (lib : Lib) (accessToken refreshToken body : String) (n : Nat),
        (mainLoop lib n (start accessToken refreshToken (always 200 body))).aborted = false
        ∧ (mainLoop lib n (start accessToken refreshToken (always 200 body))).world.closed
            = []
        ∧ (mainLoop lib n
            (start accessToken refreshToken (always 200 body))).world.openBodies.length = n)
    ∧ (closesIn (eventsSince unauthorizedWorld
          (iteration permissive unauthorizedWorld).world) = [0, 1]
      ∧ readsIn (eventsSince unauthorizedWorld
          (iteration permissive unauthorizedWorld).world) = [1, 2]
      ∧ (iteration permissive unauthorizedWorld).world.openBodies = [2]
      ∧ (iteration permissive unauthorizedWorld).world.deferred = [0]) := by
  refine ⟨?_, by decide⟩
  intro lib accessToken refreshToken body n
  have hv : (start accessToken refreshToken (always 200 body)).Valid := by
    refine ⟨?_, ?_, ?_⟩ <;> intro id hid <;> simp [start] at hid
  have h := mainLoop_open_bodies lib 200 body (by decide) n
    (start accessToken refreshToken (always 200 body)) hv rfl
  refine ⟨h.1, h.2.1, ?_⟩
  rw [h.2.2]
  simp [World.openBodies, start]

end MsTodo
